import Mathlib

/-!
Formal model of the university-transfer-advisor pipeline
(discovery → extraction → matching), shallowly embedded from the
Python sources under `src/`.  Python floats are modelled as exact
rationals, Python lists as `List`, Python dicts handed to `json.dump`
as association lists of `Json` values, and the external collaborators
(rapidfuzz similarity, the Groq classifier transport, the network
fetchers and the search provider) as explicit oracle parameters.
-/

namespace UTA

/-- Whitespace characters recognised by Python's `str.split()` /
`str.strip()` (the ASCII range, which is what occurs in the data). -/
def pyIsSpace (c : Char) : Bool :=
  c = ' ' || c = '\t' || c = '\n' || c = '\r' || c = '\x0b' || c = '\x0c'

/-- Lowercasing of one character as Python `str.lower` does, covering the
ASCII letters and the Spanish accented letters used by the sources. -/
def pyLowerChar (c : Char) : Char :=
  if 'A' ≤ c && c ≤ 'Z' then Char.ofNat (c.toNat + 32)
  else if c = 'Á' then 'á' else if c = 'É' then 'é' else if c = 'Í' then 'í'
  else if c = 'Ó' then 'ó' else if c = 'Ú' then 'ú' else if c = 'Ñ' then 'ñ'
  else if c = 'Ü' then 'ü' else c

/-- Python `str.lower`. -/
def pyLower (s : String) : String := ⟨s.data.map pyLowerChar⟩

/-- Python `s[:n]` on a string. -/
def pyTake (n : ℕ) (s : String) : String := ⟨s.data.take n⟩

/-- Python `int()` applied to a float (here: a rational): truncation
toward zero. -/
def pyInt (q : ℚ) : ℤ := if 0 ≤ q then ⌊q⌋ else -⌊-q⌋

/-- Rounding to the nearest integer, ties to even — the behaviour of
Python's `round` (floats modelled as exact rationals). -/
def roundHalfEven (q : ℚ) : ℤ :=
  let f := ⌊q⌋
  if q - f < 1/2 then f
  else if 1/2 < q - f then f + 1
  else if f % 2 = 0 then f else f + 1

/-- Python `round(q, 2)`. -/
def pyRound2 (q : ℚ) : ℚ := (roundHalfEven (q * 100) : ℚ) / 100

/-- Rendering of a rational with two decimal places, Python `f"{q:.2f}"`. -/
def format2f (q : ℚ) : String :=
  let n := roundHalfEven (q * 100)
  let sign := if n < 0 then "-" else ""
  let m := n.natAbs
  let r := m % 100
  sign ++ toString (m / 100) ++ "." ++ (if r < 10 then "0" else "") ++ toString r

/-- Truthiness of an optional string, as Python evaluates `best_uc`:
`None` and the empty string are falsy. -/
def pyTruthy : Option String → Bool
  | none => false
  | some s => s ≠ ""

/-- Model of a parsed JSON value (the possible results of `json.loads`). -/
inductive Json where
  | null : Json
  | bool (b : Bool) : Json
  | num (q : ℚ) : Json
  | str (s : String) : Json
  | arr (l : List Json) : Json
  | obj (l : List (String × Json)) : Json

/-- Python truthiness (`bool(...)`) of a JSON value. -/
def pyBool : Json → Bool
  | .null => false
  | .bool b => b
  | .num q => q ≠ 0
  | .str s => s ≠ ""
  | .arr l => !l.isEmpty
  | .obj l => !l.isEmpty

/-- Python `str(...)` of a JSON value.  Only the string case is exercised
by the claims; the rendering of composite values is abbreviated. -/
def pyStrJson : Json → String
  | .null => "None"
  | .bool b => if b then "True" else "False"
  | .num q => toString q
  | .str s => s
  | .arr _ => "[...]"
  | .obj _ => "\x7b...\x7d"

/-- Python `str.strip()` on the character list level. -/
def stripChars (l : List Char) : List Char :=
  ((l.dropWhile pyIsSpace).reverse.dropWhile pyIsSpace).reverse

/-- Python `str.strip()`. -/
def pyStrip (s : String) : String := ⟨stripChars s.data⟩

/-- Value of a Python float as `float()` can produce it: a finite value
(modelled as an exact rational), an infinity, or NaN. -/
inductive PyFloatVal where
  | fin (q : ℚ) : PyFloatVal
  | posInf : PyFloatVal
  | negInf : PyFloatVal
  | nan : PyFloatVal
deriving Repr, DecidableEq

/-- Digit run continuation of a Python numeric literal: after one
digit, further digits with single underscores allowed only between
digits. -/
def digitPartAux : List Char → Bool
  | [] => true
  | '_' :: c :: rest => c.isDigit && digitPartAux rest
  | '_' :: [] => false
  | c :: rest => c.isDigit && digitPartAux rest

/-- A `digitpart` of Python's float grammar:
`digit (["_"] digit)*` — non-empty, underscores only between digits. -/
def isDigitPart : List Char → Bool
  | [] => false
  | c :: rest => c.isDigit && digitPartAux rest

/-- Numeric value of a digit part, skipping the grouping underscores. -/
def digitsVal (l : List Char) : ℕ :=
  l.foldl (fun a c => if c = '_' then a else 10 * a + (c.toNat - 48)) 0

/-- Split a character list at the first element satisfying `p`
(separator dropped), or `none` when no element satisfies it. -/
def splitFirstP (p : Char → Bool) : List Char → Option (List Char × List Char)
  | [] => none
  | c :: rest =>
      if p c then some ([], rest)
      else match splitFirstP p rest with
        | some (a, b) => some (c :: a, b)
        | none => none

/-- Mantissa of Python's float grammar: `digitpart`, or
`[digitpart] "." [digitpart]` with at least one digit present. -/
def parseMantissa (l : List Char) : Option ℚ :=
  match splitFirstP (fun c => c = '.') l with
  | none => if isDigitPart l then some (digitsVal l : ℚ) else none
  | some (ip, fp) =>
      if (ip.isEmpty || isDigitPart ip) && (fp.isEmpty || isDigitPart fp) &&
          !(ip.isEmpty && fp.isEmpty) then
        some ((digitsVal ip : ℚ) +
          (digitsVal fp : ℚ) / (10 : ℚ) ^ (fp.filter (· ≠ '_')).length)
      else none

/-- Exponent of Python's float grammar: `[sign] digitpart`. -/
def parseExp : List Char → Option ℤ
  | '+' :: rest => if isDigitPart rest then some (digitsVal rest : ℤ) else none
  | '-' :: rest => if isDigitPart rest then some (-(digitsVal rest : ℤ)) else none
  | l => if isDigitPart l then some (digitsVal l : ℤ) else none

/-- A finite Python float literal: mantissa with an optional
`e`/`E`-marked exponent, valued exactly (floats as rationals). -/
def parseFinite (l : List Char) : Option ℚ :=
  match splitFirstP (fun c => c = 'e' || c = 'E') l with
  | none => parseMantissa l
  | some (m, ex) =>
      match parseMantissa m, parseExp ex with
      | some q, some e => some (q * (10 : ℚ) ^ e)
      | _, _ => none

/-- Python `float(s)` on a string: strip surrounding whitespace, read an
optional sign, then either a case-insensitive `inf`/`infinity`/`nan`
special or a finite literal; `none` models the `ValueError` raised on
anything else. -/
def pyFloatOfString (s : String) : Option PyFloatVal :=
  let t := stripChars s.data
  let sgnNeg : Bool := match t with | '-' :: _ => true | _ => false
  let body : List Char := match t with
    | '+' :: rest => rest
    | '-' :: rest => rest
    | _ => t
  let lower := body.map pyLowerChar
  if lower = "inf".data || lower = "infinity".data then
    some (if sgnNeg then PyFloatVal.negInf else PyFloatVal.posInf)
  else if lower = "nan".data then some PyFloatVal.nan
  else
    match parseFinite body with
    | some q => some (PyFloatVal.fin (if sgnNeg then -q else q))
    | none => none

/-- Python `float(...)` applied to a JSON value: `none` models the
`TypeError`/`ValueError` raised on values that cannot be coerced —
`None`, lists and dicts always raise, booleans give 0.0/1.0, numbers
pass through, and strings go through the `float(str)` grammar above.
JSON numbers themselves are carried as exact rationals (the
floats-as-rationals abstraction). -/
def pyFloat : Json → Option PyFloatVal
  | .null => none
  | .bool b => some (.fin (if b then 1 else 0))
  | .num q => some (.fin q)
  | .str s => pyFloatOfString s
  | .arr _ => none
  | .obj _ => none

/-- Python `max(0.0, min(1.0, conf))` evaluated on each float value.
CPython's `min`/`max` keep their first argument when a comparison is
false, so `min(1.0, nan) = 1.0` (then `max(0.0, 1.0) = 1.0`),
`min(1.0, inf) = 1.0`, and `min(1.0, -inf) = -inf` followed by
`max(0.0, -inf) = 0.0`; the clamped result is therefore always
finite. -/
def pyClamp01 : PyFloatVal → ℚ
  | .fin q => max 0 (min 1 q)
  | .posInf => 1
  | .negInf => 0
  | .nan => 1

/-- Dictionary lookup, Python `d.get(k, default)` with the default
supplied by the caller. -/
def jGet (d : List (String × Json)) (k : String) (dflt : Json) : Json :=
  match d.lookup k with
  | some v => v
  | none => dflt

/-!
## Matcher (`src/agents/matcher.py`)

`_llm_equivalence` sends a prompt to the Groq chat endpoint and then
parses the response text.  The transport (`groq_chat`) is external; the
response-processing half of the function (the `try:` block over
`json.loads(out)`) is embedded below.  `json.loads` itself is Python's
standard library, abstracted as a parsed value `Option Json` (`none`
models a parse exception).
-/

/-- Response-processing part of `_llm_equivalence`
(`src/agents/matcher.py` lines 44-55): `parsed` is the result of
`json.loads(out)` (`none` = raised), `out` is the raw response text.
Returns `(equivalent, confidence, reason)`; total, mirroring that the
Python `try/except` never lets an exception escape. -/
def llmEquivParse (parsed : Option Json) (out : String) : Bool × ℚ × String :=
  match parsed with
  | some (Json.obj kvs) =>
      let eqv := pyBool (jGet kvs "equivalent" (Json.bool false))
      match pyFloat (jGet kvs "confidence" (Json.num 0)) with
      | none => (false, 0, "LLM parse error: " ++ pyTake 120 out)
      | some v =>
          let reason := pyStrip (pyStrJson (jGet kvs "reason" (Json.str "")))
          let conf := pyClamp01 v
          let reason := if reason = "" then "LLM: no reason provided" else reason
          (eqv, conf, reason)
  | _ => (false, 0, "LLM parse error: " ++ pyTake 120 out)

/-- One note of the match report (`src/agents/matcher.py` docstring of
`match_percentage_with_notes`). -/
structure MatchNote where
  my_course : String
  best_match : Option String
  method : String
  score : ℤ
  llm_conf : ℚ
  reason : String
deriving Repr, DecidableEq

/-- Similarity of one user course against one candidate as the source
computes it: `fuzz.token_set_ratio(mc.lower(), uc.lower())`, with the
rapidfuzz scorer abstracted as the oracle `sim`. -/
def simScore (sim : String → String → ℚ) (mc uc : String) : ℚ :=
  sim (pyLower mc) (pyLower uc)

/-- Inner loop of `match_percentage_with_notes` (lines 89-96): running
best score (initially `-1`) and best candidate (initially `None`),
updated on strict improvement. -/
def bestFold (sim : String → String → ℚ) (mc : String) :
    List String → ℚ × Option String → ℚ × Option String
  | [], acc => acc
  | uc :: rest, (bs, bu) =>
      if bs < simScore sim mc uc then bestFold sim mc rest (simScore sim mc uc, some uc)
      else bestFold sim mc rest (bs, bu)

/-- Best score and best candidate for one user course. -/
def bestOf (sim : String → String → ℚ) (mc : String) (ucs : List String) :
    ℚ × Option String :=
  bestFold sim mc ucs (-1, none)

/-- Loop body of `match_percentage_with_notes` (lines 88-144) for one
user course: returns whether the course counts as a hit together with
its note.  `avail` is `groq_available()`, `llm` is `_llm_equivalence`
(its outcome for a given pair of course names). -/
def matchStep (sim : String → String → ℚ) (avail : Bool)
    (llm : String → String → Bool × ℚ × String)
    (ft low high ct : ℚ) (ucs : List String) (mc : String) : Bool × MatchNote :=
  let bs := (bestOf sim mc ucs).1
  let bu := (bestOf sim mc ucs).2
  if ft ≤ bs then
    (true, ⟨mc, bu, "fuzzy", pyInt bs, 0, "High fuzzy similarity"⟩)
  else if low ≤ bs ∧ bs ≤ high ∧ avail = true ∧ pyTruthy bu = true then
    let eqv := (llm mc (bu.getD "")).1
    let conf := (llm mc (bu.getD "")).2.1
    let reason := (llm mc (bu.getD "")).2.2
    if eqv = true ∧ ct ≤ conf then
      (true, ⟨mc, bu, "llm", pyInt bs, conf, reason⟩)
    else
      (false, ⟨mc, bu, "none", pyInt bs, conf,
        "LLM says not equivalent (conf=" ++ format2f conf ++ ") - " ++ reason⟩)
  else
    (false, ⟨mc, bu, "none", pyInt bs, 0, "Below threshold"⟩)

/-- `match_percentage_with_notes` (`src/agents/matcher.py` lines 58-147).
Parameters `ft`, `(low, high)`, `ct` are `fuzzy_threshold`, `llm_band`
and `llm_conf_threshold` (defaults 75, (55, 74), 0.70). -/
def match_percentage_with_notes (sim : String → String → ℚ) (avail : Bool)
    (llm : String → String → Bool × ℚ × String)
    (ft low high ct : ℚ) (my uni : List String) : ℚ × List MatchNote :=
  if my = [] then (0, [])
  else if uni = [] then
    (0, my.map fun c => ⟨c, none, "none", 0, 0, "No uni courses"⟩)
  else
    let results := my.map (matchStep sim avail llm ft low high ct uni)
    let hits := (results.filter (·.1)).length
    (pyRound2 (100 * hits / max 1 (my.length : ℚ)), results.map (·.2))

/-!
## Text Extractor (`src/agents/web_researcher.py`)

The extractor works line-by-line on raw text; all string operations are
embedded on the character-list level.
-/

/-- Splitting into whitespace-separated words (Python `s.split()`),
accumulator = current word reversed. -/
def wordsAux : List Char → List Char → List (List Char)
  | [], cur => if cur = [] then [] else [cur.reverse]
  | c :: cs, cur =>
      if pyIsSpace c then
        if cur = [] then wordsAux cs [] else cur.reverse :: wordsAux cs []
      else wordsAux cs (c :: cur)

/-- Python `s.split()`. -/
def pyWords (s : List Char) : List (List Char) := wordsAux s []

/-- Joining words with single spaces (Python `" ".join(ws)`). -/
def joinWords : List (List Char) → List Char
  | [] => []
  | [w] => w
  | w :: ws => w ++ ' ' :: joinWords ws

/-- `_clean_text` (`web_researcher.py` lines 22-23):
`re.sub(r"\s+", " ", s).strip()` collapses every whitespace run to one
space and strips the ends, which is exactly `" ".join(s.split())`. -/
def cleanChars (s : List Char) : List Char := joinWords (pyWords s)

/-- String-level `_clean_text`. -/
def cleanText (s : String) : String := ⟨cleanChars s.data⟩

/-- Splitting on newline characters (Python `text.split("\n")`),
accumulator = current piece reversed; empty pieces are kept. -/
def splitNlAux : List Char → List Char → List (List Char)
  | [], cur => [cur.reverse]
  | c :: cs, cur =>
      if c = '\n' then cur.reverse :: splitNlAux cs []
      else splitNlAux cs (c :: cur)

/-- Python `text.split("\n")`. -/
def splitNl (s : List Char) : List (List Char) := splitNlAux s []

/-- Joining lines with newlines (Python `"\n".join(ls)`). -/
def joinLines : List (List Char) → List Char
  | [] => []
  | [w] => w
  | w :: ws => w ++ '\n' :: joinLines ws

/-- Occurrence of `needle` as a contiguous subsequence of `hay`
(Python `needle in hay` on strings). -/
def occursIn (needle : List Char) : List Char → Bool
  | [] => needle.isPrefixOf ([] : List Char)
  | c :: cs => needle.isPrefixOf (c :: cs) || occursIn needle cs

/-- The `bad_contains` blacklist (`web_researcher.py` lines 72-82). -/
def badContains : List (List Char) :=
  ["cookies", "privacidad", "aviso legal", "contacto",
   "matricula", "matrícula", "mapa del sitio", "mapa web",
   "copyright", "iniciar sesión", "iniciar sesion",
   "vida universitaria", "servicios universitarios",
   "escuelas y facultades", "estudios de grado",
   "estudios de posgrado", "oferta académica",
   "oferta academica", "futuro estudiante",
   "traslados e intercambios", "empezar en la universidad",
   ":: estudios ::", "datos generales"].map String.data

/-- The `bad_prefixes` blacklist (`web_researcher.py` lines 84-87). -/
def badPrefixes : List (List Char) :=
  ["módulo", "modulo", "materia",
   "carácter", "caracter", "ent.", "unid."].map String.data

/-- Membership in the letter class of the source's
`re.search(r"[a-zA-ZáéíóúñÁÉÍÓÚÑ]", ln)`. -/
def isCourseLetter (c : Char) : Bool :=
  ('a' ≤ c && c ≤ 'z') || ('A' ≤ c && c ≤ 'Z') ||
  c = 'á' || c = 'é' || c = 'í' || c = 'ó' || c = 'ú' || c = 'ñ' ||
  c = 'Á' || c = 'É' || c = 'Í' || c = 'Ó' || c = 'Ú' || c = 'Ñ'

/-- Python word character (`\w`): alphanumerics and underscore, extended
with the accented letters occurring in the source data (Python's `\w`
is Unicode-wide; the subset is what the filters exercise). -/
def pyIsWordChar (c : Char) : Bool :=
  c.isAlphanum || c = '_' || isCourseLetter c

/-- The source's `re.fullmatch(r"[\d\W]+", ln)`: the line is non-empty
and every character is a digit or a non-word character. -/
def allDigitOrNonWord (ln : List Char) : Bool :=
  !ln.isEmpty && ln.all (fun c => c.isDigit || !pyIsWordChar c)

/-- Loop-body checks of `_extract_course_like_lines_from_text`
(`web_researcher.py` lines 89-108): a line survives iff none of the
`continue` branches fires. -/
def lineKeep (ln : List Char) : Bool :=
  let lnl := ln.map pyLowerChar
  !(badContains.any (fun b => occursIn b lnl)) &&
  !(badPrefixes.any (fun p => p.isPrefixOf lnl)) &&
  ln.any isCourseLetter &&
  !(allDigitOrNonWord ln) &&
  decide (2 ≤ (pyWords ln).length)

/-- Case-insensitive order-preserving dedupe
(`web_researcher.py` lines 110-117); `seen` is the set of lowercase
keys already emitted. -/
def dedupeCI : List (List Char) → List (List Char) → List (List Char)
  | [], _ => []
  | x :: xs, seen =>
      if seen.contains (x.map pyLowerChar) then dedupeCI xs seen
      else x :: dedupeCI xs ((x.map pyLowerChar) :: seen)

/-- `_extract_course_like_lines_from_text`
(`web_researcher.py` lines 68-119) on the character-list level. -/
def extractLines (text : List Char) : List (List Char) :=
  let lines := (splitNl text).map cleanChars
  let lines := lines.filter (fun x => decide (6 ≤ x.length) && decide (x.length ≤ 90))
  let out := lines.filter lineKeep
  (dedupeCI out []).take 300

/-- `_extract_course_like_lines_from_text` on strings. -/
def extractCourseLines (s : String) : List String :=
  (extractLines s.data).map (⟨·⟩)

/-- Rejoining extracted lines with newlines (Python `"\n".join(ls)` on
strings), used to feed an extraction result back to the extractor. -/
def joinWithNewlines (ls : List String) : String :=
  ⟨joinLines (ls.map String.data)⟩

/-!
## Final filter (`_final_filter_and_dedupe`, `web_researcher.py` 131-178)
-/

/-- The `institution_keywords` tuple (lines 135-140). -/
def institutionKeywords : List (List Char) :=
  ["escuela", "facultad", "departamento", "universidad",
   "grado en ", "máster", "master", "doctorado",
   "estructuras de investigación", "estructuras de investigacion",
   "i+d", "i+d+i"].map String.data

/-- Literal alternatives of the `courseish` regex (lines 142-149); the
pattern is an alternation of literals, so `courseish.search(l)` is a
substring test against any of them. -/
def courseishWords : List (List Char) :=
  ["fundamentos", "introducción", "introduccion", "ingenier", "arquitect",
   "sistemas", "bases de datos", "redes", "matem", "física", "fisica",
   "teoría", "teoria", "comput", "seguridad", "cloud", "machine",
   "visión", "vision", "iot", "robótica", "robotica", "datos", "algorit",
   "software", "programación", "programacion", "informática",
   "informatica"].map String.data

/-- Match of `needle` at the head of `hay` with `\b` boundaries on both
sides; `prev` is the character just before `hay` (none at the start).
All needles used start and end with word characters, for which `\b`
means the neighbouring character, when present, is not a word
character. -/
def wordBoundedAt (needle hay : List Char) (prev : Option Char) : Bool :=
  needle.isPrefixOf hay &&
  (match prev with | none => true | some c => !pyIsWordChar c) &&
  (match (hay.drop needle.length).head? with | none => true | some c => !pyIsWordChar c)

/-- Occurrence of `needle` somewhere in the suffix `hay`, word-bounded;
`prev` is the character preceding `hay`. -/
def occursWordBounded (needle : List Char) (prev : Option Char) : List Char → Bool
  | [] => wordBoundedAt needle [] prev
  | c :: cs => wordBoundedAt needle (c :: cs) prev || occursWordBounded needle (some c) cs

/-- The credit/semester/calendar vocabulary of line 161, with the
`cr[eé]ditos` character class expanded. -/
def ectsWords : List (List Char) :=
  ["ects", "créditos", "creditos", "semestre", "calendario"].map String.data

/-- Keep-test of one candidate string in `_final_filter_and_dedupe`
(the `continue` branches of lines 154-172). -/
def finalKeep (s : List Char) : Bool :=
  let l := s.map pyLowerChar
  decide (8 ≤ s.length) &&
  !(ectsWords.any (fun w => occursWordBounded w none l)) &&
  !((["módulo", "modulo", "materia"].map String.data).any (fun p => p.isPrefixOf l)) &&
  (!(institutionKeywords.any (fun k => occursIn k l)) ||
    courseishWords.any (fun k => occursIn k l)) &&
  !(occursIn [':'] s && decide ((pyWords s).length ≤ 4))

/-- `_final_filter_and_dedupe` (`web_researcher.py` lines 131-178). -/
def finalFilterAndDedupe (courses : List (List Char)) : List (List Char) :=
  if courses = [] then []
  else (dedupeCI (courses.filter finalKeep) []).take 300

/-!
## Fetcher (`scrape_courses_from_urls`, `web_researcher.py` 224-301)

Network, browser and document decoding are external; each URL is given
two oracles producing either the raw text handed to the extractor or an
error message (a raised exception): `htmlText` for the rendered-page
path (`page.goto`/cache + `soup.get_text("\n")`) and `pdfText` for the
byte-download path (`_download_bytes` + `_extract_text_from_pdf_bytes`).
-/

/-- One telemetry record (the `item` dict of lines 243-248). -/
structure TelemetryItem where
  url : String
  kind : String
  extracted_lines : ℕ
  error : Option String
deriving Repr, DecidableEq

/-- `_is_pdf` (`web_researcher.py` lines 60-61):
`url.lower().split("?")[0].endswith(".pdf")`. -/
def isPdfUrl (url : String) : Bool :=
  (".pdf".data).isSuffixOf ((pyLower url).data.takeWhile (· ≠ '?'))

/-- Per-URL body of the fetch loop (lines 242-294): returns the lines
added to `courses` and the telemetry item.  The HTML-path failure falls
back to the PDF path; a PDF-path failure does not. -/
def processUrl (htmlText pdfText : String → Except String String)
    (href : String) : List String × TelemetryItem :=
  if isPdfUrl href then
    match pdfText href with
    | .ok t =>
        let lines := extractCourseLines t
        (lines, ⟨href, "pdf", lines.length, none⟩)
    | .error e => ([], ⟨href, "pdf", 0, some e⟩)
  else
    match htmlText href with
    | .ok t =>
        let lines := extractCourseLines t
        (lines, ⟨href, "html", lines.length, none⟩)
    | .error e =>
        match pdfText href with
        | .ok t =>
            let lines := extractCourseLines t
            (lines, ⟨href, "pdf_fallback", lines.length, none⟩)
        | .error e2 =>
            ([], ⟨href, "html", 0, some (e ++ " | PDF fallback failed: " ++ e2)⟩)

/-- `scrape_courses_from_urls` (lines 224-301) with
`return_telemetry=True`: processes the first `maxUrls` URLs, concatenates
the extracted lines, applies the final filter, and returns the final
course list with one telemetry item per attempted URL. -/
def scrape_courses_from_urls (htmlText pdfText : String → Except String String)
    (urls : List String) (maxUrls : ℕ) : List String × List TelemetryItem :=
  let targets := urls.take maxUrls
  let results := targets.map (processUrl htmlText pdfText)
  ((finalFilterAndDedupe ((results.map (·.1)).flatten.map String.data)).map (⟨·⟩),
   results.map (·.2))

/-!
## Discoverer (`discover_program_pages`, `web_researcher.py` 355-442)

The Serper search provider and the DuckDuckGo results page are external:
`serperO` maps the final query string and the `num` argument to either
the list of organic results' `link` fields (`none` = missing key) or an
error; `ddgO` maps the DDG query to the `href` attributes of the result
anchors.
-/

/-- First-seen order-preserving dedupe of URLs (the `seen`/`uniq` loops
of lines 393-399 and 435-441). -/
def dedupeKeepOrder : List String → List String → List String
  | [], _ => []
  | x :: xs, seen =>
      if seen.contains x then dedupeKeepOrder xs seen
      else x :: dedupeKeepOrder xs (x :: seen)

/-- Python `href.startswith("http")`. -/
def pyStartsWith (pre s : String) : Bool := pre.data.isPrefixOf s.data

/-- Link-collecting loop (lines 377-382 and 425-430): append each
present `href` that starts with `"http"`, stopping as soon as the
collected list reaches `maxPages` entries. -/
def collectLinks (maxPages : ℕ) : List (Option String) → List String → List String
  | [], acc => acc.reverse
  | item :: rest, acc =>
      let acc' := match item with
        | some href => if pyStartsWith "http" href then href :: acc else acc
        | none => acc
      if maxPages ≤ acc'.length then acc'.reverse
      else collectLinks maxPages rest acc'

/-- `_build_query_with_sites` (`web_researcher.py` lines 341-352). -/
def buildQueryWithSites (query : String) (preferred : List String) : String :=
  let q := pyStrip query
  let doms := (preferred.map pyStrip).filter (· ≠ "")
  if doms = [] then q
  else q ++ " (" ++ " OR ".intercalate ((doms.take 6).map ("site:" ++ ·)) ++ ")"

/-- Python `query.replace(" ", "+")` used to build the DDG URL. -/
def ddgQuery (query : String) : String :=
  ⟨query.data.map (fun c => if c = ' ' then '+' else c)⟩

/-- `discover_program_pages` (`web_researcher.py` lines 355-442).
`serperAvail` is `_serper_available()`; on provider failure or absence
the DDG fallback path runs.  Both paths collect, dedupe first-seen, and
truncate to `max(1, max_pages)`. -/
def discover_program_pages (serperAvail : Bool)
    (serperO : String → ℤ → Except String (List (Option String)))
    (ddgO : String → List (Option String))
    (query : String) (maxPages : ℤ) (preferred : List String) : List String :=
  let mp := (max 1 maxPages).toNat
  let ddgPath :=
    (dedupeKeepOrder (collectLinks mp (ddgO (ddgQuery query)) []) []).take mp
  if serperAvail then
    match serperO (buildQueryWithSites query preferred) (max 10 (mp * 3 : ℤ)) with
    | .ok organic =>
        (dedupeKeepOrder (collectLinks mp organic []) []).take mp
    | .error _ => ddgPath
  else ddgPath

/-!
## Orchestrator (`src/run.py`, `main`, per-institution loop)

The modelled slice is the discovery and matching stages of the
per-institution loop (lines 266-408) on their computing paths; the
cache-hit short-circuits, the cost/prestige stages and the final
CSV/PDF emission are outside the claims.  `_discover_and_rank` (network
search plus ranking) and the course-scraping portion of the matching
stage (network scraping, including the institution-specific PDF-first
branch) are abstracted as oracles that either return a value or fail
with the raised exception's message.  Artifacts written by
`_write_json` are modelled as the association lists of the dict
literals in the source.
-/

/-- One target university from the mission configuration. -/
structure Institution where
  name : String
  city : String
  program_query : String
  preferred_domains : List String

/-- Return value of `_discover_and_rank` (`run.py` lines 210-215). -/
structure DiscRanked where
  queries : List String
  preferredDomains : List String
  selected : List String
  candidates : List Json

/-- Discovery artifact written on success (`run.py` lines 284-293). -/
def discoveryArtifactOk (i : Institution) (r : DiscRanked) : List (String × Json) :=
  [("university", Json.str i.name), ("city", Json.str i.city),
   ("program_query", Json.str i.program_query),
   ("queries_used", Json.arr (r.queries.map Json.str)),
   ("preferred_domains", Json.arr (r.preferredDomains.map Json.str)),
   ("selected", Json.arr (r.selected.map Json.str)),
   ("candidates", Json.arr r.candidates)]

/-- Discovery artifact written when `_discover_and_rank` raises
(`run.py` lines 295-307): default/empty values, no error key. -/
def discoveryArtifactFail (i : Institution) : List (String × Json) :=
  [("university", Json.str i.name), ("city", Json.str i.city),
   ("program_query", Json.str i.program_query),
   ("queries_used", Json.arr []),
   ("preferred_domains", Json.arr (i.preferred_domains.map Json.str)),
   ("selected", Json.arr []),
   ("candidates", Json.arr [])]

/-- String elements of a JSON array value (non-arrays give `[]`,
matching `(... or [])` applied to the `selected` key). -/
def jStrs : Json → List String
  | .arr l => l.filterMap (fun v => match v with | Json.str s => some s | _ => none)
  | _ => []

/-- `(d.get(k) or [])` for a list-of-strings key. -/
def jGetStrList (d : List (String × Json)) (k : String) : List String :=
  jStrs (jGet d k (Json.arr []))

/-- JSON form of one telemetry item. -/
def telemetryJson (t : TelemetryItem) : Json :=
  Json.obj [("url", Json.str t.url), ("kind", Json.str t.kind),
    ("extracted_lines", Json.num t.extracted_lines),
    ("error", match t.error with | none => Json.null | some e => Json.str e)]

/-- JSON form of one match note. -/
def noteJson (n : MatchNote) : Json :=
  Json.obj [("my_course", Json.str n.my_course),
    ("best_match", match n.best_match with | none => Json.null | some s => Json.str s),
    ("method", Json.str n.method), ("score", Json.num n.score),
    ("llm_conf", Json.num n.llm_conf), ("reason", Json.str n.reason)]

/-- Sources/telemetry artifact (`run.py` lines 361-369). -/
def sourcesArtifact (i : Institution) (linksUsed : List String)
    (telem : List TelemetryItem) : List (String × Json) :=
  [("university", Json.str i.name), ("city", Json.str i.city),
   ("links_used", Json.arr (linksUsed.map Json.str)),
   ("telemetry", Json.arr (telem.map telemetryJson))]

/-- Match artifact written on success (`run.py` lines 374-387). -/
def matchArtifactOk (i : Institution) (links : List String) (myCount cnt : ℕ)
    (pct : ℚ) (notes : List MatchNote) : List (String × Json) :=
  [("university", Json.str i.name), ("city", Json.str i.city),
   ("query", Json.str i.program_query),
   ("links", Json.arr (links.map Json.str)),
   ("preferred_domains", Json.arr (i.preferred_domains.map Json.str)),
   ("my_courses_count", Json.num myCount),
   ("uni_courses_count", Json.num cnt),
   ("match_pct", Json.num pct),
   ("matches", Json.arr (notes.map noteJson))]

/-- Match artifact written when the matching stage raises
(`run.py` lines 390-406): zeroed counts, empty matches, and an explicit
`error` field. -/
def matchArtifactFail (i : Institution) (links : List String) (myCount : ℕ)
    (e : String) : List (String × Json) :=
  [("university", Json.str i.name), ("city", Json.str i.city),
   ("query", Json.str i.program_query),
   ("links", Json.arr (links.map Json.str)),
   ("preferred_domains", Json.arr (i.preferred_domains.map Json.str)),
   ("my_courses_count", Json.num myCount),
   ("uni_courses_count", Json.num 0),
   ("match_pct", Json.num 0),
   ("matches", Json.arr []),
   ("error", Json.str e)]

/-- Per-institution result of the modelled slice: the artifacts written
and the values carried on to scoring. -/
structure InstitutionOutcome where
  discArtifact : List (String × Json)
  sourcesArtifact : Option (List (String × Json))
  matchArtifact : List (String × Json)
  match_pct : ℚ
  notes : List MatchNote
  uniCoursesCount : ℕ

/-- Discovery and matching stages for one institution (`run.py` lines
266-408, computing paths).  `discO` models `_discover_and_rank`, and
`scrapeO` the course-extraction portion of the matching stage; an
`error` value is the message of the exception caught by the stage's
`except` block. -/
def processInstitution (sim : String → String → ℚ) (avail : Bool)
    (llm : String → String → Bool × ℚ × String) (my : List String)
    (i : Institution) (discO : Except String DiscRanked)
    (scrapeO : Except String (List String × List TelemetryItem)) :
    InstitutionOutcome :=
  let discovery := match discO with
    | .ok r => discoveryArtifactOk i r
    | .error _ => discoveryArtifactFail i
  let links := (jGetStrList discovery "selected").take 5
  match scrapeO with
  | .ok (ucsRaw, telem) =>
      let ucs := dedupeKeepOrder ucsRaw []
      let pm := match_percentage_with_notes sim avail llm 75 55 74 (7/10) my ucs
      { discArtifact := discovery
        sourcesArtifact := some (sourcesArtifact i (links.take 3) telem)
        matchArtifact := matchArtifactOk i links my.length ucs.length pm.1 pm.2
        match_pct := pm.1
        notes := pm.2
        uniCoursesCount := ucs.length }
  | .error e =>
      { discArtifact := discovery
        sourcesArtifact := none
        matchArtifact := matchArtifactFail i links my.length e
        match_pct := 0
        notes := []
        uniCoursesCount := 0 }

/-- The orchestrator's institution loop (`run.py` line 252): every
institution is processed in turn, each producing an outcome. -/
def runBatch (sim : String → String → ℚ) (avail : Bool)
    (llm : String → String → Bool × ℚ × String) (my : List String)
    (discO : Institution → Except String DiscRanked)
    (scrapeO : Institution → Except String (List String × List TelemetryItem))
    (insts : List Institution) : List InstitutionOutcome :=
  insts.map (fun i => processInstitution sim avail llm my i (discO i) (scrapeO i))

/-- Scorer used by closed witnesses: 80 against the lowercased
candidate `"x"`, 0 otherwise. -/
def simW1 : String → String → ℚ := fun _ b => if b = "x" then 80 else 0

/-- Classifier oracle used by closed witnesses. -/
def llmW1 : String → String → Bool × ℚ × String := fun _ _ => (true, 9/10, "same topic")

/-- Expected classifier response structure, following the schema the
prompt of `_llm_equivalence` demands: a JSON object whose `equivalent`
is a boolean, `confidence` a number, and `reason` a string. -/
def expectedSchema (p : Option Json) : Bool :=
  match p with
  | some (Json.obj kvs) =>
      (match kvs.lookup "equivalent" with | some (Json.bool _) => true | _ => false) &&
      (match kvs.lookup "confidence" with | some (Json.num _) => true | _ => false) &&
      (match kvs.lookup "reason" with | some (Json.str _) => true | _ => false)
  | _ => false

/-- Fallback condition actually implemented by `_llm_equivalence`: the
response fails `json.loads`, is not a JSON object, or its `confidence`
value is one `float()` cannot coerce — `None`, a list, a dict, or a
string that is neither a numeric literal nor an `inf`/`nan` special.
Coercible confidences (numbers, booleans, numeric strings and the
non-finite specials) do not fall back. -/
def parseFallsBack (p : Option Json) : Bool :=
  match p with
  | some (Json.obj kvs) => (pyFloat (jGet kvs "confidence" (Json.num 0))).isNone
  | _ => true

/-- First-seen deduplication as the spec words it: keep each URL's first
occurrence, drop every later duplicate, preserve order. -/
def firstSeenDedup : List String → List String
  | [] => []
  | x :: xs => x :: firstSeenDedup (xs.filter (fun y => y ≠ x))
termination_by l => l.length
decreasing_by
  simp only [List.length_cons]
  exact Nat.lt_succ_of_le (List.length_filter_le _ xs)

/-!
## Lemmas about the Matcher
-/

theorem matchStep_my_course (sim : String → String → ℚ) (avail : Bool)
    (llm : String → String → Bool × ℚ × String) (ft low high ct : ℚ)
    (ucs : List String) (mc : String) :
    (matchStep sim avail llm ft low high ct ucs mc).2.my_course = mc := by
  unfold matchStep
  dsimp only
  split
  · rfl
  · split
    · split <;> rfl
    · rfl

theorem matchStep_best_match (sim : String → String → ℚ) (avail : Bool)
    (llm : String → String → Bool × ℚ × String) (ft low high ct : ℚ)
    (ucs : List String) (mc : String) :
    (matchStep sim avail llm ft low high ct ucs mc).2.best_match =
      (bestOf sim mc ucs).2 := by
  unfold matchStep
  dsimp only
  split
  · rfl
  · split
    · split <;> rfl
    · rfl

theorem matchStep_hit (sim : String → String → ℚ) (avail : Bool)
    (llm : String → String → Bool × ℚ × String) (ft low high ct : ℚ)
    (ucs : List String) (mc : String) :
    (matchStep sim avail llm ft low high ct ucs mc).1 =
      decide ((matchStep sim avail llm ft low high ct ucs mc).2.method ≠ "none") := by
  unfold matchStep
  dsimp only
  split
  · rfl
  · split
    · split <;> rfl
    · rfl

/-- Helper: the no-candidate branch of `match_percentage_with_notes`. -/
theorem matcher_no_uni (sim : String → String → ℚ) (avail : Bool)
    (llm : String → String → Bool × ℚ × String) (ft low high ct : ℚ)
    (my : List String) (h : my ≠ []) :
    match_percentage_with_notes sim avail llm ft low high ct my [] =
      (0, my.map fun c => ⟨c, none, "none", 0, 0, "No uni courses"⟩) := by
  unfold match_percentage_with_notes
  rw [if_neg h]
  rfl

/-- C3: with a non-empty user course list and no candidate courses the
matcher reports exactly 0, one note per user course in order, each a
non-match whose reason cites the missing candidates, and the result
does not depend on the similarity scorer, the classifier or its
availability (no comparison or classifier call is made). -/
theorem matcher_empty_candidates (sim : String → String → ℚ) (avail : Bool)
    (llm : String → String → Bool × ℚ × String) (ft low high ct : ℚ)
    (my : List String) (h : my ≠ []) :
    (match_percentage_with_notes sim avail llm ft low high ct my []).1 = 0 ∧
    (match_percentage_with_notes sim avail llm ft low high ct my []).2 =
      my.map (fun c => ⟨c, none, "none", 0, 0, "No uni courses"⟩) ∧
    (match_percentage_with_notes sim avail llm ft low high ct my []).2.length = my.length ∧
    (∀ n ∈ (match_percentage_with_notes sim avail llm ft low high ct my []).2,
      n.method = "none" ∧ n.best_match = none ∧ n.reason = "No uni courses") ∧
    (∀ (sim2 : String → String → ℚ) (avail2 : Bool)
      (llm2 : String → String → Bool × ℚ × String),
      match_percentage_with_notes sim2 avail2 llm2 ft low high ct my [] =
        match_percentage_with_notes sim avail llm ft low high ct my []) := by
  have e := matcher_no_uni sim avail llm ft low high ct my h
  refine ⟨by rw [e], by rw [e], by rw [e]; simp, ?_,
    fun s2 a2 l2 => by rw [e, matcher_no_uni s2 a2 l2 ft low high ct my h]⟩
  intro n hn
  rw [e] at hn
  obtain ⟨c, _, rfl⟩ := List.mem_map.mp hn
  exact ⟨rfl, rfl, rfl⟩

/-- Closed witness for `matcher_empty_candidates`. -/
theorem matcher_empty_candidates_witness :
    (["Algebra"] : List String) ≠ [] ∧
    (match_percentage_with_notes (fun _ _ => 0) false (fun _ _ => (false, 0, ""))
      75 55 74 (7/10) ["Algebra"] []).1 = 0 := by
  have h := matcher_empty_candidates (fun _ _ => 0) false (fun _ _ => (false, 0, ""))
    75 55 74 (7/10) ["Algebra"] (by simp)
  exact ⟨by simp, h.1⟩

/-- Helper: the main branch of `match_percentage_with_notes`. -/
theorem matcher_main_branch (sim : String → String → ℚ) (avail : Bool)
    (llm : String → String → Bool × ℚ × String) (ft low high ct : ℚ)
    (my uni : List String) (hmy : my ≠ []) (huni : uni ≠ []) :
    match_percentage_with_notes sim avail llm ft low high ct my uni =
      (pyRound2 (100 *
          (((my.map (matchStep sim avail llm ft low high ct uni)).filter (·.1)).length : ℚ) /
          max 1 (my.length : ℚ)),
       (my.map (matchStep sim avail llm ft low high ct uni)).map (·.2)) := by
  unfold match_percentage_with_notes
  rw [if_neg hmy, if_neg huni]

/-- Helper: hits counted by the loop equal the notes whose method is not
`"none"`. -/
theorem matcher_hits_eq_notes (sim : String → String → ℚ) (avail : Bool)
    (llm : String → String → Bool × ℚ × String) (ft low high ct : ℚ)
    (my uni : List String) :
    ((my.map (matchStep sim avail llm ft low high ct uni)).filter (·.1)).length =
      (((my.map (matchStep sim avail llm ft low high ct uni)).map (·.2)).filter
        (fun n => n.method ≠ "none")).length := by
  rw [List.map_map, List.filter_map, List.filter_map, List.length_map, List.length_map]
  exact congrArg List.length
    (List.filter_congr (fun mc _ => matchStep_hit sim avail llm ft low high ct uni mc))

/-- C2: the reported percentage is `round(100 · matched / |my_courses|, 2)`
for a non-empty user course list (where matched counts the notes not
tagged `"none"`), and the empty user course list yields percentage `0.0`
with an empty notes sequence. -/
theorem matcher_percentage_formula (sim : String → String → ℚ) (avail : Bool)
    (llm : String → String → Bool × ℚ × String) (ft low high ct : ℚ)
    (my uni : List String) :
    (my = [] → match_percentage_with_notes sim avail llm ft low high ct my uni = (0, [])) ∧
    (my ≠ [] →
      (match_percentage_with_notes sim avail llm ft low high ct my uni).1 =
        pyRound2 (100 *
          (((match_percentage_with_notes sim avail llm ft low high ct my uni).2.filter
            (fun n => n.method ≠ "none")).length : ℚ) / (my.length : ℚ))) := by
  constructor
  · intro h
    subst h
    rfl
  · intro hmy
    have hmax : max 1 (my.length : ℚ) = (my.length : ℚ) := by
      have : 1 ≤ (my.length : ℚ) := by
        exact_mod_cast Nat.one_le_iff_ne_zero.mpr (by simpa using hmy)
      exact max_eq_right this
    by_cases huni : uni = []
    · subst huni
      rw [matcher_no_uni sim avail llm ft low high ct my hmy]
      have : (List.filter (fun n => decide (n.method ≠ "none"))
          (my.map fun c => (⟨c, none, "none", 0, 0, "No uni courses"⟩ : MatchNote))) = [] := by
        rw [List.filter_eq_nil_iff]
        intro a ha
        obtain ⟨c, _, rfl⟩ := List.mem_map.mp ha
        simp
      rw [this]
      norm_num [pyRound2, roundHalfEven]
    · rw [matcher_main_branch sim avail llm ft low high ct my uni hmy huni]
      rw [← matcher_hits_eq_notes sim avail llm ft low high ct my uni, hmax]

/-- Closed witness for `matcher_percentage_formula`: one matching and
one non-matching course give 50.0 percent. -/
theorem matcher_percentage_formula_witness :
    (match_percentage_with_notes
        (fun a b => if a = "data structures" && b = "estructuras de datos" then 80 else 10)
        false (fun _ _ => (false, 0, "")) 75 55 74 (7/10)
        ["Data Structures", "Linear Algebra"] ["Estructuras de Datos", "Calculo I"]).1 =
      pyRound2 (100 * (((match_percentage_with_notes
        (fun a b => if a = "data structures" && b = "estructuras de datos" then 80 else 10)
        false (fun _ _ => (false, 0, "")) 75 55 74 (7/10)
        ["Data Structures", "Linear Algebra"] ["Estructuras de Datos", "Calculo I"]).2.filter
          (fun n => n.method ≠ "none")).length : ℚ) / 2) :=
  ((matcher_percentage_formula
      (fun a b => if a = "data structures" && b = "estructuras de datos" then 80 else 10)
      false (fun _ _ => (false, 0, "")) 75 55 74 (7/10)
      ["Data Structures", "Linear Algebra"] ["Estructuras de Datos", "Calculo I"]).2
    (by simp))

/-!
## Characterisation of the best-candidate fold
-/

theorem le_foldlMax : ∀ (l : List ℚ) (b : ℚ), b ≤ l.foldl max b
  | [], _ => le_refl _
  | a :: l, b => le_trans (le_max_left b a) (le_foldlMax l (max b a))

theorem foldlMax_ge_mem : ∀ (l : List ℚ) (b x : ℚ), x ∈ l → x ≤ l.foldl max b
  | a :: l, b, x, hx => by
      rcases List.mem_cons.mp hx with h | h
      · subst h
        exact le_trans (le_max_right b x) (le_foldlMax l (max b x))
      · exact foldlMax_ge_mem l (max b a) x h

theorem foldlMax_mem_or_init : ∀ (l : List ℚ) (b : ℚ),
    l.foldl max b = b ∨ l.foldl max b ∈ l
  | [], _ => Or.inl rfl
  | a :: l, b => by
      rcases foldlMax_mem_or_init l (max b a) with h | h
      · rw [List.foldl_cons, h]
        rcases max_choice b a with h2 | h2
        · exact Or.inl h2
        · exact Or.inr (by rw [h2]; exact List.mem_cons_self a l)
      · exact Or.inr (List.mem_cons_of_mem a h)

/-- First component of `bestFold`: the running maximum. -/
theorem bestFold_fst (sim : String → String → ℚ) (mc : String) :
    ∀ (l : List String) (bs : ℚ) (bu : Option String),
    (bestFold sim mc l (bs, bu)).1 = (l.map (simScore sim mc)).foldl max bs := by
  intro l
  induction l with
  | nil => intro bs bu; rfl
  | cons uc rest ih =>
      intro bs bu
      by_cases h : bs < simScore sim mc uc
      · rw [bestFold, if_pos h, ih, List.map_cons, List.foldl_cons,
          max_eq_right (le_of_lt h)]
      · rw [bestFold, if_neg h, ih, List.map_cons, List.foldl_cons,
          max_eq_left (le_of_not_lt h)]

/-- Second component of `bestFold`: the first candidate attaining the
running maximum, when the initial score was beaten. -/
theorem bestFold_snd (sim : String → String → ℚ) (mc : String) :
    ∀ (l : List String) (bs : ℚ) (bu : Option String),
    (bestFold sim mc l (bs, bu)).2 =
      if bs < (l.map (simScore sim mc)).foldl max bs
      then l.find? (fun uc =>
        decide (simScore sim mc uc = (l.map (simScore sim mc)).foldl max bs))
      else bu := by
  intro l
  induction l with
  | nil =>
      intro bs bu
      simp [bestFold]
  | cons uc rest ih =>
      intro bs bu
      have hM : ((uc :: rest).map (simScore sim mc)).foldl max bs =
          (rest.map (simScore sim mc)).foldl max (max bs (simScore sim mc uc)) := by
        rw [List.map_cons, List.foldl_cons]
      by_cases h : bs < simScore sim mc uc
      · rw [bestFold, if_pos h, ih, hM, max_eq_right (le_of_lt h)]
        set M := (rest.map (simScore sim mc)).foldl max (simScore sim mc uc) with hMdef
        have hsM : simScore sim mc uc ≤ M := le_foldlMax _ _
        have hbsM : bs < M := lt_of_lt_of_le h hsM
        rw [if_pos hbsM, List.find?_cons]
        by_cases he : simScore sim mc uc = M
        · rw [if_neg (by rw [he]; exact lt_irrefl M), decide_eq_true he]
        · have hlt2 : simScore sim mc uc < M := lt_of_le_of_ne hsM he
          rw [if_pos hlt2, decide_eq_false he]
      · rw [bestFold, if_neg h, ih, hM, max_eq_left (le_of_not_lt h)]
        set M := (rest.map (simScore sim mc)).foldl max bs with hMdef
        by_cases hbsM : bs < M
        · rw [if_pos hbsM, if_pos hbsM, List.find?_cons,
            decide_eq_false (by
              intro he
              exact absurd hbsM (not_lt_of_le (he ▸ le_of_not_lt h)))]
        · rw [if_neg hbsM, if_neg hbsM]

/-- Best candidate of a non-empty list under a non-negative scorer:
membership, maximality, and strict dominance over earlier candidates. -/
theorem bestOf_first_argmax (sim : String → String → ℚ) (mc : String)
    (uni : List String) (hsim : ∀ a b, 0 ≤ sim a b) (huni : uni ≠ []) :
    ∃ c pre post, (bestOf sim mc uni).2 = some c ∧ uni = pre ++ c :: post ∧
      simScore sim mc c = (bestOf sim mc uni).1 ∧
      (∀ u ∈ uni, simScore sim mc u ≤ simScore sim mc c) ∧
      (∀ u ∈ pre, simScore sim mc u < simScore sim mc c) := by
  obtain ⟨u0, rest, rfl⟩ := List.exists_cons_of_ne_nil huni
  set l := u0 :: rest with hl
  set M := (l.map (simScore sim mc)).foldl max (-1) with hMdef
  have hM0 : (0 : ℚ) ≤ M := by
    have h1 : simScore sim mc u0 ≤ M :=
      foldlMax_ge_mem _ _ _ (List.mem_map_of_mem _ (List.mem_cons_self u0 rest))
    exact le_trans (hsim _ _) h1
  have hlt : (-1 : ℚ) < M := lt_of_lt_of_le (by norm_num) hM0
  have hfst : (bestOf sim mc l).1 = M := bestFold_fst sim mc l (-1) none
  have hsnd : (bestOf sim mc l).2 =
      l.find? (fun uc => decide (simScore sim mc uc = M)) := by
    rw [bestOf, bestFold_snd, ← hMdef, if_pos hlt]
  have hattain : ∃ x ∈ l, simScore sim mc x = M := by
    rcases foldlMax_mem_or_init (l.map (simScore sim mc)) (-1) with hc | hc
    · exact absurd (hc ▸ hlt) (lt_irrefl _)
    · obtain ⟨x, hx, he⟩ := List.mem_map.mp hc
      exact ⟨x, hx, he⟩
  have hfind : ∃ c, l.find? (fun uc => decide (simScore sim mc uc = M)) = some c := by
    rcases hfo : l.find? (fun uc => decide (simScore sim mc uc = M)) with _ | c
    · obtain ⟨x, hx, he⟩ := hattain
      exact absurd (List.find?_eq_none.mp hfo x hx) (by simp [he])
    · exact ⟨c, rfl⟩
  obtain ⟨c, hc⟩ := hfind
  obtain ⟨hpc, pre, post, hsplit, hpre⟩ := List.find?_eq_some.mp hc
  refine ⟨c, pre, post, by rw [hsnd, hc], hsplit, ?_, ?_, ?_⟩
  · rw [hfst]
    exact of_decide_eq_true hpc
  · intro u hu
    have h1 : simScore sim mc u ≤ M :=
      foldlMax_ge_mem _ _ _ (List.mem_map_of_mem _ hu)
    exact le_trans h1 (le_of_eq (of_decide_eq_true hpc).symm)
  · intro u hu
    have h1 : simScore sim mc u ≤ M :=
      foldlMax_ge_mem _ _ _
        (List.mem_map_of_mem _ (by rw [hsplit]; exact List.mem_append_left _ hu))
    have h2 := hpre u hu
    have h3 : simScore sim mc u ≠ M := by
      intro he
      rw [he] at h2
      simp at h2
    rw [of_decide_eq_true hpc]
    exact lt_of_le_of_ne h1 h3

/-- C9: with non-empty user and candidate lists the matcher emits one
note per user course in input order, and each note's best match is the
first candidate (in candidate order) attaining the maximal similarity
score, the comparison being made on lowercased names. -/
theorem matcher_one_note_first_best (sim : String → String → ℚ) (avail : Bool)
    (llm : String → String → Bool × ℚ × String) (ft low high ct : ℚ)
    (my uni : List String) (hsim : ∀ a b, 0 ≤ sim a b)
    (hmy : my ≠ []) (huni : uni ≠ []) :
    (match_percentage_with_notes sim avail llm ft low high ct my uni).2.length = my.length ∧
    ∀ (i : ℕ) (mc : String), my[i]? = some mc →
      ∃ n, (match_percentage_with_notes sim avail llm ft low high ct my uni).2[i]? = some n ∧
        n.my_course = mc ∧
        ∃ c pre post, n.best_match = some c ∧ uni = pre ++ c :: post ∧
          (∀ u ∈ uni, simScore sim mc u ≤ simScore sim mc c) ∧
          (∀ u ∈ pre, simScore sim mc u < simScore sim mc c) := by
  rw [matcher_main_branch sim avail llm ft low high ct my uni hmy huni]
  constructor
  · simp
  · intro i mc hmc
    refine ⟨(matchStep sim avail llm ft low high ct uni mc).2, ?_,
      matchStep_my_course sim avail llm ft low high ct uni mc, ?_⟩
    · rw [List.getElem?_map, List.getElem?_map, hmc]
      rfl
    · obtain ⟨c, pre, post, hbm, hsplit, _, hmax, hpre⟩ :=
        bestOf_first_argmax sim mc uni hsim huni
      exact ⟨c, pre, post,
        by rw [matchStep_best_match sim avail llm ft low high ct uni mc, hbm],
        hsplit, hmax, hpre⟩

/-- Closed witness for `matcher_one_note_first_best`. -/
theorem matcher_one_note_first_best_witness :
    (∀ a b : String, (0:ℚ) ≤ simW1 a b) ∧ (["Data"] : List String) ≠ [] ∧
      (["X"] : List String) ≠ [] ∧
    ((match_percentage_with_notes simW1 true llmW1 75 55 74 (7/10) ["Data"] ["X"]).2.length = 1 ∧
     ∀ (i : ℕ) (mc : String), (["Data"] : List String)[i]? = some mc →
      ∃ n, (match_percentage_with_notes simW1 true llmW1 75 55 74 (7/10) ["Data"] ["X"]).2[i]? = some n ∧
        n.my_course = mc ∧
        ∃ c pre post, n.best_match = some c ∧ (["X"] : List String) = pre ++ c :: post ∧
          (∀ u ∈ (["X"] : List String), simScore simW1 mc u ≤ simScore simW1 mc c) ∧
          (∀ u ∈ pre, simScore simW1 mc u < simScore simW1 mc c)) :=
  ⟨fun a b => by unfold simW1; split <;> norm_num, by simp, by simp,
   matcher_one_note_first_best simW1 true llmW1 75 55 74 (7/10) ["Data"] ["X"]
     (fun a b => by unfold simW1; split <;> norm_num) (by simp) (by simp)⟩

/-- C1: three-way decision rule of the matcher on the best similarity
score of a user course, under a non-negative scorer that gives empty
candidate names score 0 (as the token-set scorer does) and band
configuration `0 < low ≤ high < threshold` (as the defaults 55, 74, 75
are): at or above the threshold the course is a `"fuzzy"` match
regardless of classifier availability; inside the band with the
classifier available the classifier verdict and its confidence decide,
a rejection carrying the classifier's reasoning; inside the band with
the classifier unavailable, or below the band, the course is a
non-match with reason "Below threshold". -/
theorem matcher_three_way_decision (sim : String → String → ℚ) (avail : Bool)
    (llm : String → String → Bool × ℚ × String) (ft low high ct : ℚ)
    (uni : List String) (mc : String)
    (hsim : ∀ a b, 0 ≤ sim a b) (hempty : ∀ a, sim a "" = 0)
    (h0l : 0 < low) (hlh : low ≤ high) (hhf : high < ft) (huni : uni ≠ []) :
    (ft ≤ (bestOf sim mc uni).1 →
      matchStep sim avail llm ft low high ct uni mc =
        (true, ⟨mc, (bestOf sim mc uni).2, "fuzzy", pyInt (bestOf sim mc uni).1, 0,
          "High fuzzy similarity"⟩)) ∧
    (low ≤ (bestOf sim mc uni).1 → (bestOf sim mc uni).1 ≤ high → avail = true →
      ((llm mc ((bestOf sim mc uni).2.getD "")).1 = true ∧
          ct ≤ (llm mc ((bestOf sim mc uni).2.getD "")).2.1 →
        matchStep sim avail llm ft low high ct uni mc =
          (true, ⟨mc, (bestOf sim mc uni).2, "llm", pyInt (bestOf sim mc uni).1,
            (llm mc ((bestOf sim mc uni).2.getD "")).2.1,
            (llm mc ((bestOf sim mc uni).2.getD "")).2.2⟩)) ∧
      (¬((llm mc ((bestOf sim mc uni).2.getD "")).1 = true ∧
          ct ≤ (llm mc ((bestOf sim mc uni).2.getD "")).2.1) →
        matchStep sim avail llm ft low high ct uni mc =
          (false, ⟨mc, (bestOf sim mc uni).2, "none", pyInt (bestOf sim mc uni).1,
            (llm mc ((bestOf sim mc uni).2.getD "")).2.1,
            "LLM says not equivalent (conf=" ++
              format2f ((llm mc ((bestOf sim mc uni).2.getD "")).2.1) ++ ") - " ++
              (llm mc ((bestOf sim mc uni).2.getD "")).2.2⟩))) ∧
    (low ≤ (bestOf sim mc uni).1 → (bestOf sim mc uni).1 ≤ high → avail = false →
      matchStep sim avail llm ft low high ct uni mc =
        (false, ⟨mc, (bestOf sim mc uni).2, "none", pyInt (bestOf sim mc uni).1, 0,
          "Below threshold"⟩)) ∧
    ((bestOf sim mc uni).1 < low →
      matchStep sim avail llm ft low high ct uni mc =
        (false, ⟨mc, (bestOf sim mc uni).2, "none", pyInt (bestOf sim mc uni).1, 0,
          "Below threshold"⟩)) := by
  refine ⟨?_, ?_, ?_, ?_⟩
  · intro hge
    unfold matchStep
    rw [if_pos hge]
  · intro hl hh hav
    have hnotft : ¬ ft ≤ (bestOf sim mc uni).1 :=
      not_le.mpr (lt_of_le_of_lt hh hhf)
    have htruthy : pyTruthy (bestOf sim mc uni).2 = true := by
      obtain ⟨c, pre, post, hbm, _, hsc, _, _⟩ :=
        bestOf_first_argmax sim mc uni hsim huni
      rw [hbm]
      unfold pyTruthy
      rw [decide_eq_true_eq]
      intro hc
      subst hc
      have h0 : simScore sim mc "" = 0 := hempty (pyLower mc)
      rw [h0] at hsc
      exact absurd (lt_of_lt_of_le h0l hl) (by rw [← hsc]; exact lt_irrefl 0)
    constructor
    · intro hyes
      unfold matchStep
      rw [if_neg hnotft, if_pos ⟨hl, hh, hav, htruthy⟩, if_pos hyes]
    · intro hno
      unfold matchStep
      rw [if_neg hnotft, if_pos ⟨hl, hh, hav, htruthy⟩, if_neg hno]
  · intro _ hh hav
    have hnotft : ¬ ft ≤ (bestOf sim mc uni).1 :=
      not_le.mpr (lt_of_le_of_lt hh hhf)
    unfold matchStep
    rw [if_neg hnotft, if_neg (by rintro ⟨_, _, h3, _⟩; rw [hav] at h3; exact Bool.false_ne_true h3)]
  · intro hlt
    have hnotft : ¬ ft ≤ (bestOf sim mc uni).1 :=
      not_le.mpr (lt_trans (lt_of_lt_of_le hlt hlh) hhf)
    unfold matchStep
    rw [if_neg hnotft, if_neg (by rintro ⟨h1, _⟩; exact absurd hlt (not_lt.mpr h1))]

/-- Closed witness for `matcher_three_way_decision`: the score 80
exceeds the threshold 75, so the course is a fuzzy match. -/
theorem matcher_three_way_decision_witness :
    (∀ a b : String, (0:ℚ) ≤ simW1 a b) ∧ (∀ a : String, simW1 a "" = 0) ∧
    ((0:ℚ) < 55) ∧ ((55:ℚ) ≤ 74) ∧ ((74:ℚ) < 75) ∧ (["X"] : List String) ≠ [] ∧
    ((75:ℚ) ≤ (bestOf simW1 "q" ["X"]).1) ∧
    matchStep simW1 false llmW1 75 55 74 (7/10) ["X"] "q" =
      (true, ⟨"q", some "X", "fuzzy", 80, 0, "High fuzzy similarity"⟩) :=
  ⟨fun a b => by unfold simW1; split <;> norm_num,
   fun a => by unfold simW1; decide,
   by norm_num, by norm_num, by norm_num, by simp,
   by decide,
   (matcher_three_way_decision simW1 false llmW1 75 55 74 (7/10) ["X"] "q"
      (fun a b => by unfold simW1; split <;> norm_num)
      (fun a => by unfold simW1; decide)
      (by norm_num) (by norm_num) (by norm_num) (by simp)).1 (by decide)⟩

/-!
## Classifier response handling (claims C7 and C10)
-/

/-- Helper: the clamp `max(0.0, min(1.0, conf))` lands in `[0, 1]` for
every float value, finite or not. -/
theorem pyClamp01_mem (v : PyFloatVal) : 0 ≤ pyClamp01 v ∧ pyClamp01 v ≤ 1 := by
  cases v with
  | fin q => exact ⟨le_max_left 0 _, max_le (by norm_num) (min_le_left 1 q)⟩
  | posInf => exact ⟨by norm_num [pyClamp01], le_refl 1⟩
  | negInf => exact ⟨le_refl 0, by norm_num [pyClamp01]⟩
  | nan => exact ⟨by norm_num [pyClamp01], le_refl 1⟩

/-- Helper: the confidence component of the embedded
`_llm_equivalence` response processing always lies in `[0, 1]`. -/
theorem llmEquivParse_conf_mem (p : Option Json) (out : String) :
    0 ≤ (llmEquivParse p out).2.1 ∧ (llmEquivParse p out).2.1 ≤ 1 := by
  have hfall : (0:ℚ) ≤ (0:ℚ) ∧ (0:ℚ) ≤ 1 := ⟨le_refl 0, by norm_num⟩
  rcases p with _ | j
  · exact hfall
  · cases j with
    | obj kvs =>
        rcases hf : pyFloat (jGet kvs "confidence" (Json.num 0)) with _ | v
        · simp [llmEquivParse, hf]
        · simp only [llmEquivParse, hf]
          exact pyClamp01_mem v
    | null => exact hfall
    | bool b => exact hfall
    | num q => exact hfall
    | str s => exact hfall
    | arr l => exact hfall

/-- Helper: the note emitted by one matcher step has its classifier
confidence in `[0, 1]` whenever the classifier oracle's confidences do. -/
theorem matchStep_conf (sim : String → String → ℚ) (avail : Bool)
    (llm : String → String → Bool × ℚ × String) (ft low high ct : ℚ)
    (ucs : List String) (mc : String)
    (hllm : ∀ a b, 0 ≤ (llm a b).2.1 ∧ (llm a b).2.1 ≤ 1) :
    0 ≤ (matchStep sim avail llm ft low high ct ucs mc).2.llm_conf ∧
      (matchStep sim avail llm ft low high ct ucs mc).2.llm_conf ≤ 1 := by
  unfold matchStep
  dsimp only
  split
  · exact ⟨le_refl 0, by norm_num⟩
  · split
    · split
      · exact hllm mc _
      · exact hllm mc _
    · exact ⟨le_refl 0, by norm_num⟩

/-- C10: the classifier confidence is clamped into `[0, 1]` before use
(even when the response reports a number outside that range), and
consequently every note produced by the matcher running over the
embedded response processing carries a classifier confidence in
`[0, 1]`. -/
theorem classifier_confidence_clamped :
    (∀ (p : Option Json) (out : String),
      0 ≤ (llmEquivParse p out).2.1 ∧ (llmEquivParse p out).2.1 ≤ 1) ∧
    (∀ (sim : String → String → ℚ) (avail : Bool)
      (pO : String → String → Option Json) (rO : String → String → String)
      (ft low high ct : ℚ) (my uni : List String) (n : MatchNote),
      n ∈ (match_percentage_with_notes sim avail
            (fun a b => llmEquivParse (pO a b) (rO a b)) ft low high ct my uni).2 →
      0 ≤ n.llm_conf ∧ n.llm_conf ≤ 1) := by
  refine ⟨llmEquivParse_conf_mem, ?_⟩
  intro sim avail pO rO ft low high ct my uni n hn
  unfold match_percentage_with_notes at hn
  by_cases hmy : my = []
  · rw [if_pos hmy] at hn
    simp at hn
  · rw [if_neg hmy] at hn
    by_cases huni : uni = []
    · rw [if_pos huni] at hn
      dsimp only at hn
      obtain ⟨c, _, rfl⟩ := List.mem_map.mp hn
      exact ⟨le_refl 0, by norm_num⟩
    · rw [if_neg huni] at hn
      dsimp only at hn
      obtain ⟨r, hr, rfl⟩ := List.mem_map.mp hn
      obtain ⟨mc, _, rfl⟩ := List.mem_map.mp hr
      exact matchStep_conf sim avail _ ft low high ct uni mc
        (fun a b => llmEquivParse_conf_mem (pO a b) (rO a b))

/-- Closed witness for `classifier_confidence_clamped`: a classifier
response reporting confidence 7 is clamped, and the note carries a
confidence inside `[0, 1]`. -/
theorem classifier_confidence_clamped_witness :
    (⟨"a", none, "none", 0, 0, "No uni courses"⟩ : MatchNote) ∈
      (match_percentage_with_notes simW1 true
        (fun _ _ => llmEquivParse
          (some (Json.obj [("equivalent", Json.bool true), ("confidence", Json.num 7)]))
          "raw") 75 55 74 (7/10) ["a"] []).2 ∧
    ((0:ℚ) ≤ (⟨"a", none, "none", 0, 0, "No uni courses"⟩ : MatchNote).llm_conf ∧
      (⟨"a", none, "none", 0, 0, "No uni courses"⟩ : MatchNote).llm_conf ≤ 1) ∧
    (llmEquivParse
      (some (Json.obj [("equivalent", Json.bool true), ("confidence", Json.num 7)]))
      "raw").2.1 = 1 := by
  have hm : (⟨"a", none, "none", 0, 0, "No uni courses"⟩ : MatchNote) ∈
      (match_percentage_with_notes simW1 true
        (fun _ _ => llmEquivParse
          (some (Json.obj [("equivalent", Json.bool true), ("confidence", Json.num 7)]))
          "raw") 75 55 74 (7/10) ["a"] []).2 := by decide
  refine ⟨hm, classifier_confidence_clamped.2 simW1 true
    (fun _ _ => some (Json.obj [("equivalent", Json.bool true), ("confidence", Json.num 7)]))
    (fun _ _ => "raw") 75 55 74 (7/10) ["a"] [] _ hm, by decide⟩

/-- Counterexample to C7 as stated: the response text
`{"equivalent": "yes"}` does not parse as the expected structure, yet
the helper coerces the string `"yes"` to a true verdict instead of
returning a non-equivalent one. -/
theorem classifier_schema_counterexample :
    expectedSchema (some (Json.obj [("equivalent", Json.str "yes")])) = false ∧
    (llmEquivParse (some (Json.obj [("equivalent", Json.str "yes")]))
      "\x7b\x22equivalent\x22: \x22yes\x22\x7d").1 = true := by
  constructor
  · rfl
  · rfl

/-- C7 (amended): whenever the response fails JSON parsing, is not an
object, or its confidence value is one `float()` cannot coerce (`None`,
a list, a dict, or a string that is neither a numeric literal nor an
`inf`/`nan` special), the helper returns a non-equivalent verdict with
confidence 0 and the diagnostic reason `"LLM parse error: "` followed
by the response's first 120 characters; being a total function, it
never propagates an exception.  Coercible confidences — including
numeric strings such as `"0.9"` — are instead converted and clamped,
as the witness demonstrates. -/
theorem classifier_parse_fallback (p : Option Json) (out : String)
    (h : parseFallsBack p = true) :
    llmEquivParse p out = (false, 0, "LLM parse error: " ++ pyTake 120 out) := by
  rcases p with _ | j
  · rfl
  · cases j with
    | obj kvs =>
        unfold parseFallsBack at h
        dsimp only at h
        rcases hf : pyFloat (jGet kvs "confidence" (Json.num 0)) with _ | conf
        · simp [llmEquivParse, hf]
        · rw [hf] at h
          simp at h
    | null => rfl
    | bool b => rfl
    | num q => rfl
    | str s => rfl
    | arr l => rfl

/-- Closed witness for `classifier_parse_fallback`: an unparseable
response and a non-numeric string confidence yield the diagnostic
non-match, while numeric string confidences such as `"0.9"` or `"1"`
are coerced (no fallback) and flow through to the verdict. -/
theorem classifier_parse_fallback_witness :
    parseFallsBack none = true ∧
    llmEquivParse none "the model rambled" =
      (false, 0, "LLM parse error: " ++ pyTake 120 "the model rambled") ∧
    parseFallsBack (some (Json.obj
      [("equivalent", Json.bool true), ("confidence", Json.str "high")])) = true ∧
    llmEquivParse (some (Json.obj
      [("equivalent", Json.bool true), ("confidence", Json.str "high")])) "resp" =
      (false, 0, "LLM parse error: " ++ pyTake 120 "resp") ∧
    parseFallsBack (some (Json.obj
      [("equivalent", Json.bool true), ("confidence", Json.str "0.9"),
       ("reason", Json.str "ok")])) = false ∧
    llmEquivParse (some (Json.obj
      [("equivalent", Json.bool true), ("confidence", Json.str "1"),
       ("reason", Json.str "ok")])) "resp" = (true, 1, "ok") :=
  ⟨rfl, classifier_parse_fallback none "the model rambled" rfl,
   rfl,
   classifier_parse_fallback (some (Json.obj
     [("equivalent", Json.bool true), ("confidence", Json.str "high")])) "resp" rfl,
   by decide, by decide⟩

/-!
## Fetcher telemetry (claim C4)
-/

/-- Helper: the telemetry item of a URL records that URL. -/
theorem processUrl_url (htmlText pdfText : String → Except String String)
    (href : String) : (processUrl htmlText pdfText href).2.url = href := by
  unfold processUrl
  split
  · split <;> rfl
  · split
    · rfl
    · split <;> rfl

/-- Counterexample to C4 as stated: when both the HTML path and the PDF
fallback fail, the telemetry entry keeps kind `"html"` — not a
`"-fallback"` variant — while its error field is populated. -/
theorem fetcher_fallback_kind_counterexample :
    (processUrl (fun _ => Except.error "nav timeout") (fun _ => Except.error "bad pdf")
        "http://u.es/plan").2.kind = "html" ∧
    (processUrl (fun _ => Except.error "nav timeout") (fun _ => Except.error "bad pdf")
        "http://u.es/plan").2.kind ≠ "pdf_fallback" ∧
    (processUrl (fun _ => Except.error "nav timeout") (fun _ => Except.error "bad pdf")
        "http://u.es/plan").2.error =
      some ("nav timeout" ++ " | PDF fallback failed: " ++ "bad pdf") := by
  refine ⟨?_, ?_, ?_⟩ <;> decide

/-- C4 (amended): when the HTML path of a non-document URL fails, the
PDF path is attempted for the same URL; a successful fallback is
recorded with kind `"pdf_fallback"` and a cleared error, a failed
fallback keeps kind `"html"` and records both error messages; in either
case the exception is absorbed into the telemetry entry, and every URL
of the batch gets exactly one telemetry entry (a failure never aborts
the remaining URLs). -/
theorem fetcher_html_fallback (htmlText pdfText : String → Except String String)
    (urls : List String) (maxUrls : ℕ) (href e : String)
    (hnotpdf : isPdfUrl href = false) (hhtml : htmlText href = .error e) :
    (∀ t, pdfText href = .ok t →
      (processUrl htmlText pdfText href).2 =
        ⟨href, "pdf_fallback", (extractCourseLines t).length, none⟩ ∧
      (processUrl htmlText pdfText href).1 = extractCourseLines t) ∧
    (∀ e2, pdfText href = .error e2 →
      (processUrl htmlText pdfText href).2 =
        ⟨href, "html", 0, some (e ++ " | PDF fallback failed: " ++ e2)⟩) ∧
    (scrape_courses_from_urls htmlText pdfText urls maxUrls).2.length =
      (urls.take maxUrls).length ∧
    (∀ (i : ℕ) (u : String), (urls.take maxUrls)[i]? = some u →
      ∃ t, (scrape_courses_from_urls htmlText pdfText urls maxUrls).2[i]? = some t ∧
        t.url = u) := by
  have hb : ¬ (isPdfUrl href = true) := by
    rw [hnotpdf]
    exact Bool.false_ne_true
  refine ⟨?_, ?_, ?_, ?_⟩
  · intro t ht
    unfold processUrl
    rw [if_neg hb, hhtml, ht]
    exact ⟨rfl, rfl⟩
  · intro e2 ht
    unfold processUrl
    rw [if_neg hb, hhtml, ht]
  · unfold scrape_courses_from_urls
    simp
  · intro i u h
    unfold scrape_courses_from_urls
    dsimp only
    rw [List.getElem?_map, List.getElem?_map, h]
    exact ⟨(processUrl htmlText pdfText u).2, rfl, processUrl_url htmlText pdfText u⟩

/-- Closed witness for `fetcher_html_fallback`: a failing HTML fetch
with a succeeding PDF fallback yields a `"pdf_fallback"` entry. -/
theorem fetcher_html_fallback_witness :
    isPdfUrl "http://u.es/plan" = false ∧
    (fun _ : String => (Except.error "nav timeout" : Except String String)) "http://u.es/plan" =
      .error "nav timeout" ∧
    (processUrl (fun _ => Except.error "nav timeout")
        (fun _ => Except.ok "Fundamentos de Programación\nBases de Datos")
        "http://u.es/plan").2 =
      ⟨"http://u.es/plan", "pdf_fallback",
        (extractCourseLines "Fundamentos de Programación\nBases de Datos").length, none⟩ :=
  ⟨by decide, rfl,
   ((fetcher_html_fallback (fun _ => Except.error "nav timeout")
      (fun _ => Except.ok "Fundamentos de Programación\nBases de Datos")
      [] 0 "http://u.es/plan" "nav timeout" (by decide) rfl).1
      "Fundamentos de Programación\nBases de Datos" rfl).1⟩

/-!
## Orchestrator failure artifacts (claim C5)
-/

/-- Counterexample to C5 as stated: when discovery raises, the artifact
the Orchestrator writes has default/empty values but carries no
`"error"` field at all. -/
theorem discovery_failure_artifact_counterexample :
    (processInstitution simW1 true llmW1 ["Algebra"]
        ⟨"U Ejemplo", "Ciudad", "grado informatica", []⟩
        (Except.error "search provider down") (Except.ok ([], []))).discArtifact =
      discoveryArtifactFail ⟨"U Ejemplo", "Ciudad", "grado informatica", []⟩ ∧
    (processInstitution simW1 true llmW1 ["Algebra"]
        ⟨"U Ejemplo", "Ciudad", "grado informatica", []⟩
        (Except.error "search provider down") (Except.ok ([], []))).discArtifact.lookup
      "error" = none := by
  constructor
  · rfl
  · rfl

/-- C5 (amended): a discovery-stage exception still yields a written
discovery artifact, with empty/default values but no error field; a
matching-stage exception yields a match artifact with zeroed counts,
empty matches and an explicit `error` field; in both cases the batch
continues, producing one outcome per institution. -/
theorem orchestrator_stage_failure_artifacts (sim : String → String → ℚ)
    (avail : Bool) (llm : String → String → Bool × ℚ × String)
    (my : List String) (insts : List Institution)
    (discO : Institution → Except String DiscRanked)
    (scrapeO : Institution → Except String (List String × List TelemetryItem)) :
    (runBatch sim avail llm my discO scrapeO insts).length = insts.length ∧
    (∀ i e, discO i = .error e →
      (processInstitution sim avail llm my i (discO i) (scrapeO i)).discArtifact =
        discoveryArtifactFail i ∧
      (processInstitution sim avail llm my i (discO i) (scrapeO i)).discArtifact.lookup
        "error" = none) ∧
    (∀ i e, scrapeO i = .error e →
      (processInstitution sim avail llm my i (discO i) (scrapeO i)).matchArtifact =
        matchArtifactFail i
          ((jGetStrList (processInstitution sim avail llm my i (discO i) (scrapeO i)).discArtifact
            "selected").take 5) my.length e ∧
      (processInstitution sim avail llm my i (discO i) (scrapeO i)).matchArtifact.lookup
        "error" = some (Json.str e) ∧
      (processInstitution sim avail llm my i (discO i) (scrapeO i)).match_pct = 0 ∧
      (processInstitution sim avail llm my i (discO i) (scrapeO i)).notes = []) := by
  refine ⟨by simp [runBatch], ?_, ?_⟩
  · intro i e h
    unfold processInstitution
    rw [h]
    rcases scrapeO i with e2 | v
    · exact ⟨rfl, rfl⟩
    · exact ⟨rfl, rfl⟩
  · intro i e h
    unfold processInstitution
    rw [h]
    rcases hd : discO i with e2 | r
    · exact ⟨rfl, rfl, rfl, rfl⟩
    · exact ⟨rfl, rfl, rfl, rfl⟩

/-- Closed witness for `orchestrator_stage_failure_artifacts`: one
institution whose discovery and matching both fail still yields a full
batch of outcomes and the described artifacts. -/
theorem orchestrator_stage_failure_artifacts_witness :
    (runBatch simW1 true llmW1 ["Algebra"] (fun _ => Except.error "search down")
      (fun _ => Except.error "net down")
      [⟨"U Ejemplo", "Ciudad", "grado informatica", []⟩]).length = 1 ∧
    (processInstitution simW1 true llmW1 ["Algebra"]
        ⟨"U Ejemplo", "Ciudad", "grado informatica", []⟩
        (Except.error "search down") (Except.error "net down")).matchArtifact.lookup
      "error" = some (Json.str "net down") :=
  ⟨(orchestrator_stage_failure_artifacts simW1 true llmW1 ["Algebra"]
      [⟨"U Ejemplo", "Ciudad", "grado informatica", []⟩]
      (fun _ => Except.error "search down") (fun _ => Except.error "net down")).1,
   ((orchestrator_stage_failure_artifacts simW1 true llmW1 ["Algebra"]
      [⟨"U Ejemplo", "Ciudad", "grado informatica", []⟩]
      (fun _ => Except.error "search down") (fun _ => Except.error "net down")).2.2
      ⟨"U Ejemplo", "Ciudad", "grado informatica", []⟩ "net down" rfl).2.1⟩

/-!
## Discoverer output (claim C6)
-/

/-- The source's seen-set dedupe loop computes first-seen
deduplication of the not-yet-seen elements. -/
theorem dedupeKeepOrder_eq : ∀ (l seen : List String),
    dedupeKeepOrder l seen = firstSeenDedup (l.filter (fun x => !seen.contains x)) := by
  intro l
  induction l with
  | nil => intro seen; simp [firstSeenDedup, dedupeKeepOrder]
  | cons x xs ih =>
      intro seen
      by_cases hx : seen.contains x = true
      · have hmem : x ∈ seen := by simpa using hx
        rw [dedupeKeepOrder, if_pos hx, ih]
        congr 1
        simp [List.filter_cons, hmem]
      · have hx' : seen.contains x = false := by simpa using hx
        have hmem : x ∉ seen := by simpa using hx'
        rw [dedupeKeepOrder, if_neg hx, ih]
        have hfc : List.filter (fun y => !seen.contains y) (x :: xs) =
            x :: List.filter (fun y => !seen.contains y) xs := by
          simp [List.filter_cons, hmem]
        rw [hfc, firstSeenDedup]
        congr 1
        rw [List.filter_filter]
        refine congrArg firstSeenDedup ?_
        apply List.filter_congr
        intro y _
        simp [List.contains_cons, Bool.and_comm]

/-- The seen-set dedupe loop yields a duplicate-free list avoiding the
seen set. -/
theorem dedupeKeepOrder_sound : ∀ (l seen : List String),
    (∀ x ∈ dedupeKeepOrder l seen, seen.contains x = false) ∧
    (dedupeKeepOrder l seen).Nodup := by
  intro l
  induction l with
  | nil =>
      intro seen
      exact ⟨fun x hx => absurd hx (List.not_mem_nil x), List.nodup_nil⟩
  | cons x xs ih =>
      intro seen
      by_cases hx : seen.contains x = true
      · rw [dedupeKeepOrder, if_pos hx]
        exact ih seen
      · rw [dedupeKeepOrder, if_neg hx]
        have h1 := ih (x :: seen)
        constructor
        · intro y hy
          rcases List.mem_cons.mp hy with rfl | hy2
          · simpa using hx
          · have h2 := h1.1 y hy2
            simp [List.contains_cons] at h2
            simpa using h2.2
        · refine List.nodup_cons.mpr ⟨?_, h1.2⟩
          intro hmem
          have h2 := h1.1 x hmem
          simp [List.contains_cons] at h2


/-- Helper: on an empty seen set the dedupe loop is exactly first-seen
deduplication. -/
theorem dedupeKeepOrder_nil_eq (l : List String) :
    dedupeKeepOrder l [] = firstSeenDedup l := by
  rw [dedupeKeepOrder_eq]
  congr 1
  exact List.filter_eq_self.mpr (fun a _ => rfl)

/-- Counterexample to C6 as stated: with `max_results = 0` the source
normalises the bound to `max(1, max_results) = 1` and can return one
URL, exceeding the requested bound. -/
theorem discoverer_zero_bound_counterexample :
    discover_program_pages true (fun _ _ => Except.ok [some "http://a.es"]) (fun _ => [])
      "grado" 0 [] = ["http://a.es"] ∧
    ¬ (((discover_program_pages true (fun _ _ => Except.ok [some "http://a.es"]) (fun _ => [])
      "grado" 0 []).length : ℤ) ≤ 0) := by
  constructor
  · rfl
  · decide

/-- C6 (amended): for an empty preferred-domain set the discoverer
returns at most `max(1, max_results)` URLs with no duplicates, and on
either path (search provider or fallback results page) the output is
the first-seen deduplication of the collected links truncated to that
bound — first encounters preserved in order, not sorted. -/
theorem discoverer_dedupe_bound (serperAvail : Bool)
    (serperO : String → ℤ → Except String (List (Option String)))
    (ddgO : String → List (Option String)) (query : String) (maxPages : ℤ) :
    (discover_program_pages serperAvail serperO ddgO query maxPages []).Nodup ∧
    (discover_program_pages serperAvail serperO ddgO query maxPages []).length ≤
      (max 1 maxPages).toNat ∧
    (∀ organic, serperAvail = true →
      serperO (buildQueryWithSites query []) (max 10 ((max 1 maxPages).toNat * 3 : ℤ)) =
        .ok organic →
      discover_program_pages serperAvail serperO ddgO query maxPages [] =
        (firstSeenDedup (collectLinks (max 1 maxPages).toNat organic [])).take
          (max 1 maxPages).toNat) ∧
    ((serperAvail = false ∨
        ∃ err, serperO (buildQueryWithSites query [])
          (max 10 ((max 1 maxPages).toNat * 3 : ℤ)) = .error err) →
      discover_program_pages serperAvail serperO ddgO query maxPages [] =
        (firstSeenDedup (collectLinks (max 1 maxPages).toNat (ddgO (ddgQuery query)) [])).take
          (max 1 maxPages).toNat) := by
  have hgen : ∀ c : List String,
      ((dedupeKeepOrder c []).take (max 1 maxPages).toNat).Nodup ∧
      ((dedupeKeepOrder c []).take (max 1 maxPages).toNat).length ≤
        (max 1 maxPages).toNat := by
    intro c
    constructor
    · exact ((dedupeKeepOrder_sound c []).2).sublist (List.take_sublist _ _)
    · exact List.length_take_le _ _
  have hout : (discover_program_pages serperAvail serperO ddgO query maxPages []).Nodup ∧
      (discover_program_pages serperAvail serperO ddgO query maxPages []).length ≤
        (max 1 maxPages).toNat := by
    unfold discover_program_pages
    dsimp only
    by_cases hs : serperAvail = true
    · rw [if_pos hs]
      rcases h : serperO (buildQueryWithSites query [])
          (max 10 ((max 1 maxPages).toNat * 3 : ℤ)) with e | organic
      · exact hgen _
      · exact hgen _
    · rw [if_neg hs]
      exact hgen _
  refine ⟨hout.1, hout.2, ?_, ?_⟩
  · intro organic hs hok
    unfold discover_program_pages
    rw [if_pos hs, hok]
    try dsimp only
    rw [dedupeKeepOrder_nil_eq]
  · intro hfail
    unfold discover_program_pages
    rcases hfail with hs | ⟨err, herr⟩
    · rw [if_neg (by simp [hs])]
      try dsimp only
      rw [dedupeKeepOrder_nil_eq]
    · by_cases hs : serperAvail = true
      · rw [if_pos hs, herr]
        try dsimp only
        rw [dedupeKeepOrder_nil_eq]
      · rw [if_neg hs]
        try dsimp only
        rw [dedupeKeepOrder_nil_eq]

/-- Closed witness for `discoverer_dedupe_bound`: three collected links
with one duplicate give two unique URLs in first-seen order. -/
theorem discoverer_dedupe_bound_witness :
    (discover_program_pages true
      (fun _ _ => Except.ok [some "http://a.es", some "http://a.es", some "http://b.es"])
      (fun _ => []) "grado" 5 []).Nodup ∧
    (discover_program_pages true
      (fun _ _ => Except.ok [some "http://a.es", some "http://a.es", some "http://b.es"])
      (fun _ => []) "grado" 5 []).length ≤ (max 1 (5:ℤ)).toNat ∧
    discover_program_pages true
      (fun _ _ => Except.ok [some "http://a.es", some "http://a.es", some "http://b.es"])
      (fun _ => []) "grado" 5 [] =
      (firstSeenDedup (collectLinks (max 1 (5:ℤ)).toNat
        [some "http://a.es", some "http://a.es", some "http://b.es"] [])).take
        (max 1 (5:ℤ)).toNat :=
  ⟨(discoverer_dedupe_bound true
      (fun _ _ => Except.ok [some "http://a.es", some "http://a.es", some "http://b.es"])
      (fun _ => []) "grado" 5).1,
   (discoverer_dedupe_bound true
      (fun _ _ => Except.ok [some "http://a.es", some "http://a.es", some "http://b.es"])
      (fun _ => []) "grado" 5).2.1,
   (discoverer_dedupe_bound true
      (fun _ _ => Except.ok [some "http://a.es", some "http://a.es", some "http://b.es"])
      (fun _ => []) "grado" 5).2.2.1
      [some "http://a.es", some "http://a.es", some "http://b.es"] rfl rfl⟩

/-!
## Text Extractor idempotence (claim C8)
-/

/-- Words produced by `wordsAux` are non-empty and contain no
whitespace, provided the accumulator does not. -/
theorem wordsAux_nonempty_nospace : ∀ (s cur : List Char),
    (∀ c ∈ cur, pyIsSpace c = false) →
    ∀ w ∈ wordsAux s cur, w ≠ [] ∧ ∀ c ∈ w, pyIsSpace c = false := by
  intro s
  induction s with
  | nil =>
      intro cur hcur w hw
      unfold wordsAux at hw
      by_cases h : cur = []
      · rw [if_pos h] at hw
        exact absurd hw (List.not_mem_nil w)
      · rw [if_neg h] at hw
        rcases List.mem_singleton.mp hw with rfl
        exact ⟨by simpa using h, fun c hc => hcur c (List.mem_reverse.mp hc)⟩
  | cons a s ih =>
      intro cur hcur w hw
      unfold wordsAux at hw
      by_cases hsp : pyIsSpace a = true
      · rw [if_pos hsp] at hw
        by_cases h : cur = []
        · rw [if_pos h] at hw
          exact ih [] (by simp) w hw
        · rw [if_neg h] at hw
          rcases List.mem_cons.mp hw with rfl | hw2
          · exact ⟨by simpa using h, fun c hc => hcur c (List.mem_reverse.mp hc)⟩
          · exact ih [] (by simp) w hw2
      · rw [if_neg hsp] at hw
        have hcur2 : ∀ c ∈ a :: cur, pyIsSpace c = false := by
          intro c hc
          rcases List.mem_cons.mp hc with rfl | hc2
          · simpa using hsp
          · exact hcur c hc2
        exact ih (a :: cur) hcur2 w hw

/-- Walking a whitespace-free word moves it into the accumulator. -/
theorem wordsAux_append : ∀ (w : List Char),
    (∀ c ∈ w, pyIsSpace c = false) →
    ∀ (r cur : List Char), wordsAux (w ++ r) cur = wordsAux r (w.reverse ++ cur) := by
  intro w
  induction w with
  | nil => intro _ r cur; simp
  | cons a w' ih =>
      intro hw r cur
      have ha : pyIsSpace a = false := hw a (List.mem_cons_self a w')
      rw [List.cons_append, wordsAux, if_neg (by simp [ha]),
        ih (fun c hc => hw c (List.mem_cons_of_mem a hc)) r (a :: cur)]
      congr 1
      simp

/-- Splitting the single-space join of non-empty whitespace-free words
recovers the words. -/
theorem pyWords_joinWords : ∀ (ws : List (List Char)),
    (∀ w ∈ ws, w ≠ [] ∧ ∀ c ∈ w, pyIsSpace c = false) →
    pyWords (joinWords ws) = ws := by
  intro ws
  induction ws with
  | nil => intro _; rfl
  | cons w ws' ih =>
      intro hws
      have hw := hws w (List.mem_cons_self w ws')
      cases ws' with
      | nil =>
          have h2 := wordsAux_append w hw.2 [] []
          rw [List.append_nil, List.append_nil] at h2
          show wordsAux (joinWords [w]) [] = [w]
          rw [show joinWords [w] = w from rfl, h2, wordsAux,
            if_neg (by simp [hw.1]), List.reverse_reverse]
      | cons w2 ws'' =>
          have hrest : ∀ v ∈ w2 :: ws'', v ≠ [] ∧ ∀ c ∈ v, pyIsSpace c = false :=
            fun v hv => hws v (List.mem_cons_of_mem w hv)
          show wordsAux (joinWords (w :: w2 :: ws'')) [] = w :: w2 :: ws''
          rw [show joinWords (w :: w2 :: ws'') = w ++ ' ' :: joinWords (w2 :: ws'') from rfl,
            wordsAux_append w hw.2, List.append_nil, wordsAux,
            if_pos (by decide), if_neg (by simp [hw.1]), List.reverse_reverse]
          rw [show wordsAux (joinWords (w2 :: ws'')) [] = pyWords (joinWords (w2 :: ws'')) from rfl,
            ih hrest]

/-- Cleaning is idempotent. -/
theorem cleanChars_idem (s : List Char) : cleanChars (cleanChars s) = cleanChars s := by
  show joinWords (pyWords (joinWords (pyWords s))) = joinWords (pyWords s)
  rw [pyWords_joinWords (pyWords s) (wordsAux_nonempty_nospace s [] (by simp))]

/-- Characters of a single-space join are spaces or word characters. -/
theorem mem_joinWords : ∀ (ws : List (List Char)) (c : Char),
    c ∈ joinWords ws → c = ' ' ∨ ∃ w ∈ ws, c ∈ w := by
  intro ws
  induction ws with
  | nil => intro c hc; exact absurd hc (List.not_mem_nil c)
  | cons w ws' ih =>
      intro c hc
      cases ws' with
      | nil => exact Or.inr ⟨w, List.mem_cons_self w _, by simpa using hc⟩
      | cons w2 ws'' =>
          rw [show joinWords (w :: w2 :: ws'') = w ++ ' ' :: joinWords (w2 :: ws'') from rfl] at hc
          rcases List.mem_append.mp hc with h | h
          · exact Or.inr ⟨w, List.mem_cons_self w _, h⟩
          · rcases List.mem_cons.mp h with rfl | h2
            · exact Or.inl rfl
            · rcases ih c h2 with h3 | ⟨v, hv, hcv⟩
              · exact Or.inl h3
              · exact Or.inr ⟨v, List.mem_cons_of_mem w hv, hcv⟩

/-- A cleaned line contains no newline character. -/
theorem cleanChars_no_newline (s : List Char) : '\n' ∉ cleanChars s := by
  intro hc
  rcases mem_joinWords (pyWords s) '\n' hc with h | ⟨w, hw, hcw⟩
  · exact absurd h (by decide)
  · exact absurd ((wordsAux_nonempty_nospace s [] (by simp) w hw).2 '\n' hcw) (by decide)

/-- Walking a newline-free piece moves it into the accumulator. -/
theorem splitNlAux_append : ∀ (w : List Char), '\n' ∉ w →
    ∀ (r cur : List Char), splitNlAux (w ++ r) cur = splitNlAux r (w.reverse ++ cur) := by
  intro w
  induction w with
  | nil => intro _ r cur; simp
  | cons a w' ih =>
      intro hw r cur
      have ha : ¬ a = '\n' := fun h => hw (h ▸ List.mem_cons_self a w')
      rw [List.cons_append, splitNlAux, if_neg ha,
        ih (fun h => hw (List.mem_cons_of_mem a h)) r (a :: cur)]
      congr 1
      simp

/-- Splitting the newline join of newline-free lines recovers the
lines. -/
theorem splitNl_joinLines : ∀ (ls : List (List Char)), ls ≠ [] →
    (∀ w ∈ ls, '\n' ∉ w) → splitNl (joinLines ls) = ls := by
  intro ls
  induction ls with
  | nil => intro h _; exact absurd rfl h
  | cons w ls' ih =>
      intro _ hls
      have hw := hls w (List.mem_cons_self w ls')
      cases ls' with
      | nil =>
          show splitNlAux (joinLines [w]) [] = [w]
          have h2 := splitNlAux_append w hw [] []
          rw [List.append_nil, List.append_nil] at h2
          rw [show joinLines [w] = w from rfl, h2, splitNlAux, List.reverse_reverse]
      | cons w2 ls'' =>
          have hrest : ∀ v ∈ w2 :: ls'', '\n' ∉ v :=
            fun v hv => hls v (List.mem_cons_of_mem w hv)
          show splitNlAux (joinLines (w :: w2 :: ls'')) [] = w :: w2 :: ls''
          rw [show joinLines (w :: w2 :: ls'') = w ++ '\n' :: joinLines (w2 :: ls'') from rfl,
            splitNlAux_append w hw, List.append_nil, splitNlAux, if_pos rfl,
            List.reverse_reverse]
          rw [show splitNlAux (joinLines (w2 :: ls'')) [] = splitNl (joinLines (w2 :: ls'')) from rfl,
            ih (by simp) hrest]

/-- The dedupe pass yields a sublist of its input. -/
theorem dedupeCI_sublist : ∀ (l seen : List (List Char)), List.Sublist (dedupeCI l seen) l := by
  intro l
  induction l with
  | nil => intro seen; exact List.Sublist.refl []
  | cons x xs ih =>
      intro seen
      unfold dedupeCI
      by_cases h : seen.contains (x.map pyLowerChar) = true
      · rw [if_pos h]
        exact (ih seen).cons x
      · rw [if_neg h]
        exact (ih _).cons₂ x

/-- The dedupe pass avoids the seen keys and yields pairwise distinct
lowercase keys. -/
theorem dedupeCI_sound : ∀ (l seen : List (List Char)),
    (∀ x ∈ dedupeCI l seen, seen.contains (x.map pyLowerChar) = false) ∧
    (dedupeCI l seen).Pairwise (fun a b => a.map pyLowerChar ≠ b.map pyLowerChar) := by
  intro l
  induction l with
  | nil =>
      intro seen
      exact ⟨fun x hx => absurd hx (List.not_mem_nil x), List.Pairwise.nil⟩
  | cons x xs ih =>
      intro seen
      unfold dedupeCI
      by_cases h : seen.contains (x.map pyLowerChar) = true
      · rw [if_pos h]
        exact ih seen
      · rw [if_neg h]
        have h1 := ih (x.map pyLowerChar :: seen)
        constructor
        · intro y hy
          rcases List.mem_cons.mp hy with rfl | hy2
          · simpa using h
          · have h2 := h1.1 y hy2
            simp [List.contains_cons] at h2
            simpa using h2.2
        · refine List.pairwise_cons.mpr ⟨?_, h1.2⟩
          intro y hy
          have h2 := h1.1 y hy
          simp [List.contains_cons] at h2
          exact fun he => h2.1 he.symm
/-- On a list whose keys avoid the seen set and are pairwise distinct,
the dedupe pass is the identity. -/
theorem dedupeCI_id : ∀ (l seen : List (List Char)),
    (∀ x ∈ l, seen.contains (x.map pyLowerChar) = false) →
    l.Pairwise (fun a b => a.map pyLowerChar ≠ b.map pyLowerChar) →
    dedupeCI l seen = l := by
  intro l
  induction l with
  | nil => intro seen _ _; rfl
  | cons x xs ih =>
      intro seen hseen hpw
      have hx := hseen x (List.mem_cons_self x xs)
      have hx' : List.map pyLowerChar x ∉ seen := by simpa using hx
      unfold dedupeCI
      rw [if_neg (by simp [hx'])]
      congr 1
      have hpw' := List.pairwise_cons.mp hpw
      refine ih (x.map pyLowerChar :: seen) ?_ hpw'.2
      intro y hy
      simp [List.contains_cons]
      constructor
      · exact fun he => (hpw'.1 y hy) he.symm
      · simpa using hseen y (List.mem_cons_of_mem x hy)

/-- Every line the extractor emits is a fixed point of cleaning, within
the length bounds, accepted by the keep-test, and newline-free. -/
theorem extractLines_mem (t : List Char) :
    ∀ x ∈ extractLines t, cleanChars x = x ∧
      (decide (6 ≤ x.length) && decide (x.length ≤ 90)) = true ∧
      lineKeep x = true ∧ '\n' ∉ x := by
  intro x hx
  unfold extractLines at hx
  dsimp only at hx
  have hx2 : x ∈ dedupeCI
      ((((splitNl t).map cleanChars).filter
        (fun x => decide (6 ≤ x.length) && decide (x.length ≤ 90))).filter lineKeep) [] :=
    (List.take_sublist 300 _).subset hx
  have hx3 : x ∈ (((splitNl t).map cleanChars).filter
      (fun x => decide (6 ≤ x.length) && decide (x.length ≤ 90))).filter lineKeep :=
    (dedupeCI_sublist _ []).subset hx2
  have hx4 := List.mem_filter.mp hx3
  have hx5 := List.mem_filter.mp hx4.1
  obtain ⟨y, _, rfl⟩ := List.mem_map.mp hx5.1
  exact ⟨cleanChars_idem y, hx5.2, hx4.2, cleanChars_no_newline y⟩

/-- The extractor's output has pairwise distinct lowercase keys. -/
theorem extractLines_pairwise (t : List Char) :
    (extractLines t).Pairwise (fun a b => a.map pyLowerChar ≠ b.map pyLowerChar) := by
  unfold extractLines
  dsimp only
  exact List.Pairwise.sublist (List.take_sublist 300 _) (dedupeCI_sound _ []).2

/-- The extractor emits at most 300 lines. -/
theorem extractLines_len (t : List Char) : (extractLines t).length ≤ 300 := by
  unfold extractLines
  dsimp only
  exact List.length_take_le 300 _

/-- Idempotence of the extractor on the character-list level. -/
theorem extractLines_idem (t : List Char) :
    extractLines (joinLines (extractLines t)) = extractLines t := by
  by_cases hE : extractLines t = []
  · rw [hE]
    rfl
  · have hmem := extractLines_mem t
    have h1 : splitNl (joinLines (extractLines t)) = extractLines t :=
      splitNl_joinLines (extractLines t) hE (fun w hw => (hmem w hw).2.2.2)
    have h2 : (extractLines t).map cleanChars = extractLines t :=
      calc (extractLines t).map cleanChars
          = (extractLines t).map id := List.map_congr_left (fun x hx => (hmem x hx).1)
        _ = extractLines t := List.map_id _
    have h3 : (extractLines t).filter
        (fun x => decide (6 ≤ x.length) && decide (x.length ≤ 90)) = extractLines t :=
      List.filter_eq_self.mpr (fun a ha => (hmem a ha).2.1)
    have h4 : (extractLines t).filter lineKeep = extractLines t :=
      List.filter_eq_self.mpr (fun a ha => (hmem a ha).2.2.1)
    have h5 : dedupeCI (extractLines t) [] = extractLines t :=
      dedupeCI_id (extractLines t) [] (fun x _ => rfl) (extractLines_pairwise t)
    have h6 : (extractLines t).take 300 = extractLines t :=
      List.take_of_length_le (extractLines_len t)
    show (dedupeCI ((((splitNl (joinLines (extractLines t))).map cleanChars).filter
        (fun x => decide (6 ≤ x.length) && decide (x.length ≤ 90))).filter lineKeep) []).take 300 =
      extractLines t
    rw [h1, h2, h3, h4, h5, h6]

/-- C8: the Text Extractor is idempotent on its own output — rejoining
the extracted lines with newlines and extracting again returns exactly
the same line sequence, a fixed point after one pass. -/
theorem extractor_idempotent (text : String) :
    extractCourseLines (joinWithNewlines (extractCourseLines text)) =
      extractCourseLines text := by
  have hdata : (((extractLines text.data).map (fun l : List Char => (⟨l⟩ : String))).map
      String.data) = extractLines text.data := by
    rw [List.map_map]
    calc (extractLines text.data).map (String.data ∘ fun l : List Char => (⟨l⟩ : String))
        = (extractLines text.data).map id := List.map_congr_left (fun x _ => rfl)
      _ = extractLines text.data := List.map_id _
  show (extractLines (joinLines (((extractLines text.data).map
      (fun l : List Char => (⟨l⟩ : String))).map String.data))).map
      (fun l : List Char => (⟨l⟩ : String)) =
    (extractLines text.data).map (fun l : List Char => (⟨l⟩ : String))
  rw [hdata, extractLines_idem]

end UTA
